import Mathlib

/-!
Shallow embedding of `main.py` from the globalise-iiif-manifests repository:
the EAD-to-IIIF transformer (tree parser, scan resolver, manifest and
collection builders), together with theorems checking the documented
behaviour of each component.

External effects are made explicit:
* the filesystem and the scan-response cache are threaded as a `World` value;
* the network (`requests.get`), the XML reader (`lxml.etree` parsing) and the
  IIIF image-info fetch (`make_canvas_from_iiif`) are oracles in an `Env`;
* Python exceptions become `Except Err` results.
-/

set_option maxHeartbeats 1600000

namespace Globalise

/-! ### String helpers

Character-level implementations of the Python string operations used by
`main.py` (`str.replace`, `str.strip`, the double-space collapsing loop,
`str.endswith`, `str.rsplit(".", 1)[0]`, `split("/")[-1]`, substring test,
`os.path.dirname`).  They are written structurally (the replace scan is
indexed by a fuel that starts at the input length, which the scan never
exhausts) so that every definition evaluates by `decide`/`rfl`. -/

/-- One pass of Python `str.replace`: scan left to right, replacing each
non-overlapping occurrence of `pat`.  `fuel` only bounds the recursion and
is always called with `fuel = input length`, which is sufficient because
every step consumes at least one input character. -/
def replaceChars (pat rep : List Char) : Nat → List Char → List Char
  | _, [] => []
  | 0, l => l
  | fuel + 1, c :: rest =>
    if !pat.isEmpty && pat.isPrefixOf (c :: rest) then
      rep ++ replaceChars pat rep fuel (rest.drop (pat.length - 1))
    else
      c :: replaceChars pat rep fuel rest

/-- Python `s.replace(pat, rep)` (all non-overlapping occurrences). -/
def pyReplace (s pat rep : String) : String :=
  ⟨replaceChars pat.data rep.data s.data.length s.data⟩

/-- The net effect of the `while "  " in s: s = s.replace("  ", " ")` loops in
`main.py`: every run of consecutive spaces is collapsed to a single space. -/
def collapseChars : List Char → List Char
  | [] => []
  | [c] => [c]
  | c :: c2 :: rest =>
    if c == ' ' && c2 == ' ' then collapseChars (c2 :: rest)
    else c :: collapseChars (c2 :: rest)

/-- Collapse repeated interior spaces, as the double-space `while` loops do. -/
def collapse (s : String) : String := ⟨collapseChars s.data⟩

/-- Whitespace characters removed by Python `str.strip()`. -/
def isPySpace (c : Char) : Bool :=
  c == ' ' || c == '\t' || c == '\n' || c == '\r'

/-- Python `s.strip()`. -/
def pyStrip (s : String) : String :=
  ⟨((s.data.dropWhile isPySpace).reverse.dropWhile isPySpace).reverse⟩

/-- Substring test, Python `pat in s`. -/
def substrAux (pat : List Char) : List Char → Bool
  | [] => pat.isEmpty
  | c :: rest => pat.isPrefixOf (c :: rest) || substrAux pat rest

/-- Python `pat in s` for strings. -/
def hasSubstring (s pat : String) : Bool := substrAux pat.data s.data

/-- Python `s.endswith(suf)`. -/
def strEndsWith (s suf : String) : Bool := suf.data.isSuffixOf s.data

/-- Python `s.rsplit(".", 1)[0]` for a string known to contain a dot:
everything before the last dot (a dotless string is returned unchanged). -/
def dropAfterLastDot (s : String) : String :=
  match s.data.reverse.dropWhile (fun c => c != '.') with
  | [] => s
  | _ :: restRev => ⟨restRev.reverse⟩

/-- Python `s.split(sep)[-1]`: the segment after the last separator. -/
def lastSegment (sep : Char) (s : String) : String :=
  ⟨(s.data.reverse.takeWhile (fun c => c != sep)).reverse⟩

/-- `os.path.dirname` for the relative slash-separated paths the program
derives: everything before the last `/`, and `""` when there is no `/`. -/
def dirname (p : String) : String :=
  match p.data.reverse.dropWhile (fun c => c != '/') with
  | [] => ""
  | _ :: restRev => ⟨restRev.reverse⟩

/-! ### Python exceptions -/

/-- The exceptions the modelled code can raise. -/
inductive Err where
  /-- `AttributeError`, e.g. calling `.find`/`.text`/`.itertext` on `None`. -/
  | attrError
  /-- `KeyError` from a missing mandatory XML attribute. -/
  | keyError
  /-- `UnboundLocalError`/`NameError` from reading `sub_part` before any
  branch of the `to_collection` child loop assigned it. -/
  | nameError
  /-- `FileNotFoundError` from `os.makedirs("")`. -/
  | makedirsError
  /-- a failed `requests.get` on a scan-metadata fetch. -/
  | fetchError
  /-- an XML document that `lxml.etree` fails to parse. -/
  | parseError
  /-- `IndexError`, e.g. `i["titles"][0]` on an empty list. -/
  | indexError
  deriving Repr, DecidableEq

/-! ### XML elements

A generic element tree standing for the `lxml` elements the parser walks:
tag, attributes, direct text and child elements, with the `find` variants
`main.py` uses (direct-child lookup and two-step paths, first match in
document order). -/

/-- An XML element: tag, attributes, direct text content, children. -/
inductive XmlEl where
  | mk (tag : String) (attrs : List (String × String)) (txt : String)
      (children : List XmlEl)

/-- The element's tag. -/
def XmlEl.tag : XmlEl → String
  | .mk t _ _ _ => t

/-- The element's attribute list. -/
def XmlEl.attrs : XmlEl → List (String × String)
  | .mk _ a _ _ => a

/-- The element's direct text (lxml `.text`, with absent text read as `""`). -/
def XmlEl.text : XmlEl → String
  | .mk _ _ x _ => x

/-- The element's children. -/
def XmlEl.children : XmlEl → List XmlEl
  | .mk _ _ _ cs => cs

theorem XmlEl.sizeOf_children_lt (el : XmlEl) : sizeOf el.children < sizeOf el := by
  cases el with
  | mk t a x cs => simp [XmlEl.children]

/-- Python `dict.get` / lxml `attrib.get`: first binding of the key. -/
def pyGet (attrs : List (String × String)) (k : String) : Option String :=
  (attrs.find? (fun p => p.1 == k)).map (fun p => p.2)

/-- lxml `el.get(k)` on an element. -/
def XmlEl.get (el : XmlEl) (k : String) : Option String := pyGet el.attrs k

/-- `el.find(tag)`: first direct child with the given tag. -/
def findChildTag (el : XmlEl) (t : String) : Option XmlEl :=
  el.children.find? (fun c => c.tag == t)

/-- `el.find(t1 + "/" + ...)`: first grandchild, in document order, lying
under a direct `t1` child and satisfying `p`. -/
def findPath2P (el : XmlEl) (t1 : String) (p : XmlEl → Bool) : Option XmlEl :=
  (el.children.filter (fun c => c.tag == t1)).findSome?
    (fun c => c.children.find? p)

mutual

/-- `"".join(el.itertext())` (direct text of the subtree, in order). -/
def XmlEl.itertext : XmlEl → String
  | .mk _ _ x cs => x ++ itertextList cs
termination_by e => (sizeOf e, 1)

/-- Concatenated `itertext` of a list of elements, in order. -/
def itertextList : List XmlEl → String
  | [] => ""
  | c :: cs => c.itertext ++ itertextList cs
termination_by l => (sizeOf l, 0)

end

/-- `date_el.attrib.get("normal", date_el.attrib.get("text"))`, with an
absent result read as the empty date. -/
def dateOfEl (date_el : XmlEl) : String :=
  match pyGet date_el.attrs "normal" with
  | some v => v
  | none =>
    match pyGet date_el.attrs "text" with
    | some v => v
    | none => ""

/-! ### Archival tree model

The dataclasses of `main.py`: `Fonds`/`Series`/`FileGroup` own an ordered
`hasPart` list, `File` is the leaf. -/

/-- The `File` dataclass. -/
structure FileRec where
  code : String
  title : String
  uri : String
  date : String
  metsid : String
  deriving Repr, DecidableEq

/-- The archival node hierarchy (`Fonds`, `Series`, `FileGroup`, `File`). -/
inductive ANode where
  | fonds (code title uri : String) (hasPart : List ANode)
  | series (code title uri : String) (hasPart : List ANode)
  | filegrp (code title uri date : String) (hasPart : List ANode)
  | file (f : FileRec)

/-- The node's `code` attribute. -/
def ANode.code : ANode → String
  | .fonds c _ _ _ => c
  | .series c _ _ _ => c
  | .filegrp c _ _ _ _ => c
  | .file f => f.code

/-- The node's `title` attribute. -/
def ANode.title : ANode → String
  | .fonds _ t _ _ => t
  | .series _ t _ _ => t
  | .filegrp _ t _ _ _ => t
  | .file f => f.title

/-- The node's `hasPart` list (empty for a leaf `File`). -/
def ANode.hasPart : ANode → List ANode
  | .fonds _ _ _ ps => ps
  | .series _ _ _ ps => ps
  | .filegrp _ _ _ _ ps => ps
  | .file _ => []

/-- Whether the node is one of the collection-bearing variants. -/
def ANode.isCollNode : ANode → Bool
  | .fonds _ _ _ _ => true
  | .series _ _ _ _ => true
  | .filegrp _ _ _ _ _ => true
  | .file _ => false

/-! ### Tree parser (`get_file`, `get_filegrp`, `get_series`,
`get_file_and_filegrp_els` of `main.py`) -/

/-- `file_el.find("did")`. -/
def findDid (file_el : XmlEl) : Option XmlEl := findChildTag file_el "did"

/-- `did.find("unitid[@identifier]")`. -/
def findInvEl (did : XmlEl) : Option XmlEl :=
  did.children.find?
    (fun c => c.tag == "unitid" && (pyGet c.attrs "identifier").isSome)

/-- `did.find("unitid[@type='handle']")`. -/
def findHandleEl (did : XmlEl) : Option XmlEl :=
  did.children.find?
    (fun c => c.tag == "unitid" && pyGet c.attrs "type" == some "handle")

/-- `did.find("unittitle")`. -/
def findTitleEl (did : XmlEl) : Option XmlEl :=
  did.children.find? (fun c => c.tag == "unittitle")

/-- `did.find("unittitle/unitdate")`. -/
def findFileDateEl (did : XmlEl) : Option XmlEl :=
  (did.children.filter (fun c => c.tag == "unittitle")).findSome?
    (fun c => c.children.find? (fun d => d.tag == "unitdate"))

/-- `did.find("dao")`. -/
def findDaoEl (did : XmlEl) : Option XmlEl :=
  did.children.find? (fun c => c.tag == "dao")

/-- `get_file` of `main.py`: parse one `file`-level element.  Returns
`.ok none` for the silent drops (no `unitid[@identifier]`, or excluded by a
non-empty filter), `.error` for the exceptions Python would raise. -/
def get_file (file_el : XmlEl) (filter_codes : List String) :
    Except Err (Option FileRec) :=
  match findDid file_el with
  | none => .error .attrError
  | some did =>
    match findInvEl did with
    | none => .ok none
    | some inventorynumber_el =>
      let inventorynumber := inventorynumber_el.text
      if filter_codes ≠ [] ∧ inventorynumber ∉ filter_codes then .ok none
      else
        match findHandleEl did with
        | none => .error .attrError
        | some handle_el =>
          let permalink := handle_el.text
          match findTitleEl did with
          | none => .error .attrError
          | some title_el =>
            let title := collapse (pyStrip title_el.itertext)
            let date :=
              match findFileDateEl did with
              | some date_el => dateOfEl date_el
              | none => ""
            match findDaoEl did with
            | none =>
              .ok (some { code := inventorynumber, title := title,
                          uri := permalink, date := date, metsid := "" })
            | some metsid_el =>
              match pyGet metsid_el.attrs "href" with
              | none => .error .keyError
              | some href =>
                .ok (some { code := inventorynumber, title := title,
                            uri := permalink, date := date,
                            metsid := lastSegment '/' href })

mutual

/-- `get_series` of `main.py`: a missing `did/unittitle` raises; a missing
`did/unitid[@type='series_code']` falls back to using the title as code. -/
def get_series (series_el : XmlEl) (filter_codes : List String) :
    Except Err ANode :=
  match findPath2P series_el "did" (fun c => c.tag == "unittitle") with
  | none => .error .attrError
  | some title_el =>
    let series_title := collapse (pyStrip title_el.itertext)
    let series_code :=
      match findPath2P series_el "did"
          (fun c => c.tag == "unitid" && pyGet c.attrs "type" == some "series_code") with
      | some code_el => pyReplace code_el.text "/" "-"
      | none => series_title
    have _hsz : sizeOf series_el.children < sizeOf series_el :=
      XmlEl.sizeOf_children_lt series_el
    match get_file_and_filegrp_els series_el filter_codes with
    | .error e => .error e
    | .ok parts => .ok (.series series_code series_title "" parts)
termination_by (sizeOf series_el, 2)

/-- `get_filegrp` of `main.py`: a missing `did/unitid` or `did/unittitle`
raises. -/
def get_filegrp (filegrp_el : XmlEl) (filter_codes : List String) :
    Except Err ANode :=
  match findPath2P filegrp_el "did" (fun c => c.tag == "unitid") with
  | none => .error .attrError
  | some code_el =>
    let filegrp_code := code_el.text
    match findPath2P filegrp_el "did" (fun c => c.tag == "unittitle") with
    | none => .error .attrError
    | some title_el =>
      let filegrp_title := collapse (pyStrip title_el.itertext)
      let date :=
        match findPath2P filegrp_el "did" (fun c => c.tag == "unitdate") with
        | some date_el => dateOfEl date_el
        | none => ""
      have _hsz : sizeOf filegrp_el.children < sizeOf filegrp_el :=
        XmlEl.sizeOf_children_lt filegrp_el
      match get_file_and_filegrp_els filegrp_el filter_codes with
      | .error e => .error e
      | .ok parts => .ok (.filegrp filegrp_code filegrp_title "" date parts)
termination_by (sizeOf filegrp_el, 2)

/-- `get_file_and_filegrp_els` of `main.py`: dispatch each child element on
its `level`/`otherlevel` attribute, skipping unrecognised levels and dropped
files, and keep source order. -/
def get_file_and_filegrp_els (series_el : XmlEl) (filter_codes : List String) :
    Except Err (List ANode) :=
  have _hsz : sizeOf series_el.children < sizeOf series_el :=
    XmlEl.sizeOf_children_lt series_el
  parts_loop series_el.children filter_codes
termination_by (sizeOf series_el, 1)

/-- The `for el in file_and_filegrp_els` loop body of
`get_file_and_filegrp_els`. -/
def parts_loop (els : List XmlEl) (filter_codes : List String) :
    Except Err (List ANode) :=
  match els with
  | [] => .ok []
  | el :: rest =>
    if el.get "level" == some "file" then
      match get_file el filter_codes with
      | .error e => .error e
      | .ok none => parts_loop rest filter_codes
      | .ok (some f) =>
        match parts_loop rest filter_codes with
        | .error e => .error e
        | .ok ps => .ok (.file f :: ps)
    else if el.get "otherlevel" == some "filegrp" then
      match get_filegrp el filter_codes with
      | .error e => .error e
      | .ok node =>
        match parts_loop rest filter_codes with
        | .error e => .error e
        | .ok ps => .ok (node :: ps)
    else if el.get "level" == some "subseries" then
      match get_series el filter_codes with
      | .error e => .error e
      | .ok node =>
        match parts_loop rest filter_codes with
        | .error e => .error e
        | .ok ps => .ok (node :: ps)
    else parts_loop rest filter_codes
termination_by (sizeOf els, 0)

end

/-! ### IIIF resources

The parts of the `iiif_prezi3` objects that `main.py` constructs and that the
emitted JSON exposes. -/

/-- A `KeyValueString` metadata entry: label and the `"en"` value list. -/
structure KVS where
  label : String
  value : List String
  deriving Repr, DecidableEq

/-- One Canvas with its painting annotation data.  A canvas produced by
`make_canvas_from_iiif` (a successful image-info fetch) carries
`viaFetch := true` and the dimensions reported by the image service; the
manually assembled canvas carries the service/body/annotation ids built in
`to_manifest`. -/
structure CanvasRec where
  id : String
  label : String
  height : Nat
  width : Nat
  serviceId : Option String
  bodyId : Option String
  annoId : Option String
  annoPageId : Option String
  viaFetch : Bool
  deriving Repr, DecidableEq

/-- A Manifest body. -/
structure ManifestRec where
  id : String
  label : String
  metadata : List KVS
  rights : String
  items : List CanvasRec
  deriving Repr, DecidableEq

/-- An emitted IIIF resource: a Collection, a Manifest, or a lightweight
`Reference` (id + label + type only). -/
inductive Resource where
  | collection (id : String) (label : String) (metadata : List KVS)
      (items : List Resource)
  | manifest (m : ManifestRec)
  | reference (id : String) (label : String) (type_ : String)

/-! ### METS scan metadata -/

/-- One `mets:file` entry of the `USE='DISPLAY'` file group: its `ID`
attribute and, when the `FLocat[@LOCTYPE='URL']` child with its XLink href
is present, that href. -/
structure MetsFile where
  id : String
  flocatHref : Option String
  deriving Repr, DecidableEq

/-- One `mets:structMap/mets:div/mets:div` entry: `ID` and `LABEL`. -/
structure MetsDiv where
  id : String
  label : String
  deriving Repr, DecidableEq

/-- A parsed METS document, restricted to what `get_scans` reads. -/
structure Mets where
  displayFiles : List MetsFile
  structDivs : List MetsDiv
  deriving Repr, DecidableEq

/-- The `for file_el in mets.findall(...)` extraction loop of `get_scans`:
service href rewritten from the internal `/iip/` convention, page name from
the structMap label joined on the file id without its 3-character suffix. -/
def extractScans (divs : List MetsDiv) : List MetsFile → Except Err (List (String × String))
  | [] => .ok []
  | file_el :: rest =>
    let file_id := file_el.id.dropRight 3
    match file_el.flocatHref with
    | none => .error .attrError
    | some href =>
      let service_info_url := pyReplace href "/iip/" "/iipsrv?IIIF=/"
      match divs.find? (fun d => d.id == file_id) with
      | none => .error .attrError
      | some div =>
        let file_name := lastSegment '/' div.label
        match extractScans divs rest with
        | .error e => .error e
        | .ok scans => .ok ((file_name, service_info_url) :: scans)

/-! ### Effect model -/

/-- The mutable external state: written output files, the scan-response
cache directory, and the log of network fetches performed. -/
structure World where
  fs : List String
  scanCache : List (String × String)
  scanFetches : List String
  deriving Repr, DecidableEq

/-- The external oracles: `requests.get` on the METS service (`none` is a
failed request), the XML reader (`none` is unparsable XML), the IIIF
image-info fetch behind `make_canvas_from_iiif` (`none` is a failed fetch,
`some (h, w)` the reported dimensions), and the configured cache directory
(`""` disables the cache). -/
structure Env where
  network : String → Option String
  parseXml : String → Option Mets
  fetchCanvas : String → Option (Nat × Nat)
  cachePath : String

/-- `get_scans` of `main.py`.  Empty `metsid`: no cache access, no fetch.
Cache hit: re-read the cached raw response.  Cache miss: fetch, parse
(`ET.fromstring`), and only then write the raw response to the cache, so an
unparsable response is fetched but never cached. -/
def get_scans (env : Env) (metsid : String) (w : World) :
    Except Err (List (String × String)) × World :=
  if metsid = "" then (.ok [], w)
  else if env.cachePath ≠ "" ∧ (w.scanCache.find? (fun p => p.1 == metsid)).isSome then
    match w.scanCache.find? (fun p => p.1 == metsid) with
    | none => (.error .parseError, w)
    | some cached =>
      match env.parseXml cached.2 with
      | none => (.error .parseError, w)
      | some mets => (extractScans mets.structDivs mets.displayFiles, w)
  else
    match env.network metsid with
    | none => (.error .fetchError, { w with scanFetches := w.scanFetches ++ [metsid] })
    | some xml =>
      let w1 := { w with scanFetches := w.scanFetches ++ [metsid] }
      match env.parseXml xml with
      | none => (.error .parseError, w1)
      | some mets =>
        let w2 :=
          if env.cachePath ≠ "" then
            { w1 with scanCache := w1.scanCache ++ [(metsid, xml)] }
          else w1
        (extractScans mets.structDivs mets.displayFiles, w2)

/-! ### Manifest builder (`to_manifest` of `main.py`) -/

/-- The derived output file name: `prefix + code + ".json"` with every
space replaced by `+` (used for `File`-based manifests and collections). -/
def derivedPath (pfx code : String) : String :=
  pyReplace (pfx ++ code ++ ".json") " " "+"

/-- The `<a href="...">...</a>` Permalink markup. -/
def anchor (u : String) : String :=
  "<a href=\"" ++ u ++ "\">" ++ u ++ "</a>"

/-- The default `license_uri` argument of `to_manifest`. -/
def defaultLicense : String := "https://creativecommons.org/publicdomain/mark/1.0/"

/-- The optional height/width dataset: stripped file name to `(h, w)`. -/
def HwdTable : Type := List (String × Nat × Nat)

/-- Lookup in the height/width dataset. -/
def hwdLookup (t : HwdTable) (k : String) : Option (Nat × Nat) :=
  (List.find? (fun p => p.1 == k) t).map (fun p => p.2)

/-- The strip rule for canvas labels: drop a known image extension. -/
def stripExt (file_name : String) : String :=
  if strEndsWith file_name ".tif" || strEndsWith file_name ".tiff"
      || strEndsWith file_name ".jpg" || strEndsWith file_name ".jpeg" then
    dropAfterLastDot file_name
  else file_name

/-- The manually assembled Canvas of the `if not fetch_from_url` branch. -/
def manualCanvas (manifest_id : String) (n : Nat) (base url : String)
    (h w : Nat) : CanvasRec :=
  let canvas_id := manifest_id ++ "/canvas/p" ++ toString n
  let service_id := pyReplace url "/info.json" ""
  { id := canvas_id, label := base, height := h, width := w,
    serviceId := some service_id,
    bodyId := some (service_id ++ "/full/full/0/default.jpg"),
    annoId := some (canvas_id ++ "/anno"),
    annoPageId := some (canvas_id ++ "/annotationpage"),
    viaFetch := false }

/-- The Canvas produced by a successful `manifest.make_canvas_from_iiif`
call: ids as passed by `to_manifest`, dimensions as reported by the image
service. -/
def fetchedCanvas (manifest_id : String) (n : Nat) (base : String)
    (fh fw : Nat) : CanvasRec :=
  { id := manifest_id ++ "/canvas/p" ++ toString n,
    label := base, height := fh, width := fw,
    serviceId := none, bodyId := none,
    annoId := some (manifest_id ++ "/canvas/p" ++ toString n ++ "/anno"),
    annoPageId := some (manifest_id ++ "/canvas/p" ++ toString n ++ "/annotationpage"),
    viaFetch := true }

/-- One iteration of the `for n, (file_name, iiif_service_info) in
enumerate(scans, 1)` loop of `to_manifest`.  `flag` is the function-level
`fetch_from_url` variable, which persists across iterations: a height/width
entry missing from a supplied table sets it; a failed fetch resets it (with
the 100×100 placeholder); a table hit leaves it unchanged, so after an
earlier miss the table values are overridden by fetching. -/
def canvasStep (env : Env) (hwd : Option HwdTable) (manifest_id : String)
    (flag : Bool) (n : Nat) (scan : String × String) : Bool × CanvasRec :=
  let file_name := scan.1
  let iiif_service_info := scan.2
  let base_file_name := stripExt file_name
  let afterIf : Bool × Nat × Nat :=
    match hwd with
    | some table =>
      match hwdLookup table base_file_name with
      | some hw => (flag, hw.1, hw.2)
      | none => (true, 100, 100)
    | none => (flag, 100, 100)
  if afterIf.1 then
    match env.fetchCanvas iiif_service_info with
    | some fhw =>
      (true, fetchedCanvas manifest_id n base_file_name fhw.1 fhw.2)
    | none =>
      (false, manualCanvas manifest_id n base_file_name iiif_service_info 100 100)
  else
    (false, manualCanvas manifest_id n base_file_name iiif_service_info
      afterIf.2.1 afterIf.2.2)

/-- The whole scan loop of `to_manifest`, threading `fetch_from_url`. -/
def addScans (env : Env) (hwd : Option HwdTable) (manifest_id : String)
    (flag : Bool) (n : Nat) : List (String × String) → List CanvasRec
  | [] => []
  | scan :: rest =>
    let step := canvasStep env hwd manifest_id flag n scan
    step.2 :: addScans env hwd manifest_id step.1 (n + 1) rest

/-- The aggregated multi-document record (`defaultdict` built in `main` /
`parse_csv`): one output code with the per-document metadata lists; `scans`
is non-empty exactly when the record carries a precomputed scan list. -/
structure AggRecord where
  code : String
  titles : List String
  dates : List String
  uris : List String
  metsid : String
  scans : List (String × String)
  deriving Repr, DecidableEq

/-- The `i: File | dict` argument of `to_manifest`. -/
inductive MInput where
  | file (f : FileRec)
  | dict (d : AggRecord)

/-- `to_manifest` of `main.py`.  For a `File`: skip-if-exists returns a
`Reference`; otherwise `os.makedirs(os.path.dirname(...))` (which raises on
an empty dirname), metadata assembly, scan resolution and the canvas loop,
then the file write.  For a dict record: the file name keeps its spaces,
skip-if-exists returns nothing, metadata fields are per-document lists with
`"?"` for missing values. -/
def to_manifest (env : Env) (i : MInput) (base_url : String) (pfx : String)
    (license_uri : String) (fetch_from_url : Bool) (hwd_data : Option HwdTable)
    (w : World) : Except Err (Option Resource) × World :=
  match i with
  | .file f =>
    let manifest_filename := derivedPath pfx f.code
    let manifest_id := base_url ++ manifest_filename
    if manifest_filename ∈ w.fs then
      (.ok (some (.reference manifest_id (f.code ++ " - " ++ f.title) "Manifest")), w)
    else if dirname manifest_filename = "" then
      (.error .makedirsError, w)
    else
      let metadata : List KVS :=
        [⟨"Identifier", [f.code]⟩,
         ⟨"Title", [f.title]⟩,
         ⟨"Date", [if f.date = "" then "?" else f.date]⟩,
         ⟨"Permalink", [anchor f.uri]⟩]
      match get_scans env f.metsid w with
      | (.error e, w1) => (.error e, w1)
      | (.ok scans, w1) =>
        let items := addScans env hwd_data manifest_id fetch_from_url 1 scans
        (.ok (some (.manifest
            { id := manifest_id, label := f.code ++ " - " ++ f.title,
              metadata := metadata, rights := license_uri, items := items })),
          { w1 with fs := manifest_filename :: w1.fs })
  | .dict d =>
    let manifest_filename := pfx ++ d.code ++ ".json"
    let manifest_id := base_url ++ manifest_filename
    if manifest_filename ∈ w.fs then
      (.ok none, w)
    else if dirname manifest_filename = "" then
      (.error .makedirsError, w)
    else
      match (if hasSubstring pfx "inventories" then .ok ("Inventory " ++ d.code)
             else match d.titles.head? with
                  | none => .error Err.indexError
                  | some t => .ok t : Except Err String) with
      | .error e => (.error e, w)
      | .ok label =>
        let metadata : List KVS :=
          [⟨"Identifier", [d.code]⟩,
           ⟨"Titles", d.titles.map (fun t => if t = "" then "?" else t)⟩,
           ⟨"Dates", d.dates.map (fun t => if t = "" then "?" else t)⟩,
           ⟨"Permalink", d.uris.map (fun u => if u = "" then "?" else anchor u)⟩]
        match (if d.scans ≠ [] then (.ok d.scans, w) else get_scans env d.metsid w :
            Except Err (List (String × String)) × World) with
        | (.error e, w1) => (.error e, w1)
        | (.ok scans, w1) =>
          let items := addScans env hwd_data manifest_id fetch_from_url 1 scans
          (.ok (some (.manifest
              { id := manifest_id, label := label,
                metadata := metadata, rights := license_uri, items := items })),
            { w1 with fs := manifest_filename :: w1.fs })

/-! ### Collection builder (`to_collection` of `main.py`) -/

theorem ANode.sizeOf_hasPart_lt (i : ANode) (h : i.isCollNode = true) :
    sizeOf i.hasPart < sizeOf i := by
  cases i with
  | fonds c t u ps => simp [ANode.hasPart]
  | series c t u ps => simp [ANode.hasPart]
  | filegrp c t u d ps => simp [ANode.hasPart]
  | file f => simp [ANode.isCollNode] at h

mutual

/-- `to_collection` of `main.py`: derive the path and id, assemble the
Collection metadata, walk the children (`collect_children`), and persist and
return the Collection only when at least one child produced a sub-resource.
Calling it on a `File` raises (`File` has no `hasPart`). -/
def to_collection (env : Env) (i : ANode) (base_url : String) (pfx : String)
    (base_url_manifests : String) (w : World) :
    Except Err (Option Resource) × World :=
  match i with
  | .file _ => (.error .attrError, w)
  | .fonds code title uri parts =>
    have _hsz : sizeOf parts < sizeOf (ANode.fonds code title uri parts) := by
      simp
    to_collection_body env code title uri parts base_url pfx base_url_manifests w
  | .series code title uri parts =>
    have _hsz : sizeOf parts < sizeOf (ANode.series code title uri parts) := by
      simp
    to_collection_body env code title uri parts base_url pfx base_url_manifests w
  | .filegrp code title uri date parts =>
    have _hsz : sizeOf parts < sizeOf (ANode.filegrp code title uri date parts) := by
      simp
    to_collection_body env code title uri parts base_url pfx base_url_manifests w
termination_by (sizeOf i, 2)

/-- The shared body of `to_collection` for the three collection-bearing
node variants. -/
def to_collection_body (env : Env) (code title uri : String)
    (parts : List ANode) (base_url pfx base_url_manifests : String)
    (w : World) : Except Err (Option Resource) × World :=
  let collection_filename := derivedPath pfx code
  let collection_id := base_url ++ collection_filename
  let metadata : List KVS :=
    [⟨"Identifier", [code]⟩, ⟨"Title", [title]⟩]
      ++ (if uri ≠ "" then [⟨"Permalink", [anchor uri]⟩] else [])
  match collect_children env parts base_url collection_filename
      base_url_manifests none [] false w with
  | (.error e, w1) => (.error e, w1)
  | (.ok (items, at_least_one_file), w1) =>
    if at_least_one_file then
      (.ok (some (.collection collection_id (code ++ " - " ++ title) metadata items)),
        { w1 with fs := collection_filename :: w1.fs })
    else
      (.ok none, w1)
termination_by (sizeOf parts, 1)

/-- The `sub_part` value for a child that matched no `isinstance` branch
(a nested `Fonds`): Python re-tests the stale local, raising
`UnboundLocalError` when no earlier iteration assigned it. -/
def fonds_step (lastSub : Option (Option Resource)) (w : World) :
    Except Err (Option Resource) × World :=
  match lastSub with
  | none => (.error .nameError, w)
  | some sp => (.ok sp, w)

/-- One `sub_part` computation of the `for c in i.hasPart` loop of
`to_collection`: the three `isinstance` dispatch branches, plus the
stale-variable re-test for an unmatched `Fonds` child. -/
def child_step (env : Env) (c : ANode)
    (base_url collection_filename base_url_manifests : String)
    (lastSub : Option (Option Resource)) (w : World) :
    Except Err (Option Resource) × World :=
  match c with
  | .series co ti ur ps =>
    to_collection env (.series co ti ur ps) base_url
      (pyReplace collection_filename ".json" "/") base_url_manifests w
  | .filegrp co ti ur da ps =>
    to_collection env (.filegrp co ti ur da ps) base_url
      (pyReplace collection_filename ".json" "/") base_url_manifests w
  | .file f =>
    if base_url_manifests ≠ "" then
      to_manifest env (.file f) base_url_manifests "inventories/"
        defaultLicense false none w
    else
      to_manifest env (.file f) base_url (pyReplace collection_filename ".json" "/")
        defaultLicense false none w
  | .fonds _ _ _ _ => fonds_step lastSub w
termination_by (sizeOf c, 3)
decreasing_by
  all_goals
    simp_wf
    first
      | (apply Prod.Lex.left
         omega)
      | (apply Prod.Lex.right
         omega)

/-- The `for c in i.hasPart` loop of `to_collection`.  `lastSub` is the
Python local `sub_part`; truthy sub-parts are appended and set the
`at_least_one_file` flag. -/
def collect_children (env : Env) (cs : List ANode)
    (base_url collection_filename base_url_manifests : String)
    (lastSub : Option (Option Resource)) (items : List Resource) (flag : Bool)
    (w : World) : Except Err (List Resource × Bool) × World :=
  match cs with
  | [] => (.ok (items, flag), w)
  | c :: rest =>
    match child_step env c base_url collection_filename base_url_manifests
        lastSub w with
    | (.error e, w1) => (.error e, w1)
    | (.ok sp, w1) =>
      match sp with
      | some r =>
        collect_children env rest base_url collection_filename base_url_manifests
          (some sp) (items ++ [r]) true w1
      | none =>
        collect_children env rest base_url collection_filename base_url_manifests
          (some sp) items flag w1
termination_by (sizeOf cs, 0)
decreasing_by
  all_goals
    simp_wf
    first
      | (apply Prod.Lex.left
         omega)
      | (apply Prod.Lex.right
         omega)

end

theorem child_step_series (env : Env) (co ti ur : String) (ps : List ANode)
    (bu cf bm : String) (ls : Option (Option Resource)) (w : World) :
    child_step env (.series co ti ur ps) bu cf bm ls w =
      to_collection env (.series co ti ur ps) bu (pyReplace cf ".json" "/") bm w := by
  rw [child_step.eq_def]

theorem child_step_filegrp (env : Env) (co ti ur da : String) (ps : List ANode)
    (bu cf bm : String) (ls : Option (Option Resource)) (w : World) :
    child_step env (.filegrp co ti ur da ps) bu cf bm ls w =
      to_collection env (.filegrp co ti ur da ps) bu (pyReplace cf ".json" "/") bm w := by
  rw [child_step.eq_def]

theorem child_step_file (env : Env) (f : FileRec)
    (bu cf bm : String) (ls : Option (Option Resource)) (w : World) :
    child_step env (.file f) bu cf bm ls w =
      if bm ≠ "" then
        to_manifest env (.file f) bm "inventories/" defaultLicense false none w
      else
        to_manifest env (.file f) bu (pyReplace cf ".json" "/") defaultLicense
          false none w := by
  rw [child_step.eq_def]

theorem child_step_fonds (env : Env) (co ti ur : String) (ps : List ANode)
    (bu cf bm : String) (ls : Option (Option Resource)) (w : World) :
    child_step env (.fonds co ti ur ps) bu cf bm ls w = fonds_step ls w := by
  rw [child_step.eq_def]

/-! ### Structural invariants of the emitted graph -/

mutual

/-- Every Collection reachable inside the resource has a non-empty item
list (the "no empty branches" invariant of the emitted graph). -/
def noEmptyColl : Resource → Bool
  | .collection i l m items =>
    have _hsz : sizeOf items < sizeOf (Resource.collection i l m items) := by
      simp
    !items.isEmpty && noEmptyCollList items
  | .manifest _ => true
  | .reference _ _ _ => true
termination_by r => (sizeOf r, 1)

/-- `noEmptyColl` over a list of resources. -/
def noEmptyCollList : List Resource → Bool
  | [] => true
  | r :: rs => noEmptyColl r && noEmptyCollList rs
termination_by l => (sizeOf l, 0)

end

theorem noEmptyCollList_iff (l : List Resource) :
    noEmptyCollList l = true ↔ ∀ x ∈ l, noEmptyColl x = true := by
  induction l with
  | nil => simp [noEmptyCollList]
  | cons r rs ih =>
    rw [noEmptyCollList]
    simp [ih]

/-! ### Behaviour of `to_manifest` -/

theorem to_manifest_file_exists (env : Env) (f : FileRec) (bu p lic : String)
    (ffu : Bool) (hwd : Option HwdTable) (w : World)
    (hmem : derivedPath p f.code ∈ w.fs) :
    to_manifest env (.file f) bu p lic ffu hwd w =
      (.ok (some (.reference (bu ++ derivedPath p f.code)
        (f.code ++ " - " ++ f.title) "Manifest")), w) := by
  simp [to_manifest, hmem]

theorem to_manifest_dict_exists (env : Env) (d : AggRecord) (bu p lic : String)
    (ffu : Bool) (hwd : Option HwdTable) (w : World)
    (hmem : p ++ d.code ++ ".json" ∈ w.fs) :
    to_manifest env (.dict d) bu p lic ffu hwd w = (.ok none, w) := by
  simp [to_manifest, hmem]

theorem to_manifest_file_built (env : Env) (f : FileRec) (bu p lic : String)
    (ffu : Bool) (hwd : Option HwdTable) (w : World)
    (scans : List (String × String)) (w1 : World)
    (hmem : derivedPath p f.code ∉ w.fs)
    (hdir : dirname (derivedPath p f.code) ≠ "")
    (hscans : get_scans env f.metsid w = (.ok scans, w1)) :
    to_manifest env (.file f) bu p lic ffu hwd w =
      (.ok (some (.manifest
        { id := bu ++ derivedPath p f.code,
          label := f.code ++ " - " ++ f.title,
          metadata :=
            [⟨"Identifier", [f.code]⟩,
             ⟨"Title", [f.title]⟩,
             ⟨"Date", [if f.date = "" then "?" else f.date]⟩,
             ⟨"Permalink", [anchor f.uri]⟩],
          rights := lic,
          items := addScans env hwd (bu ++ derivedPath p f.code) ffu 1 scans })),
        { w1 with fs := derivedPath p f.code :: w1.fs }) := by
  simp [to_manifest, hmem, hdir, hscans]

theorem to_manifest_file_makedirs (env : Env) (f : FileRec) (bu p lic : String)
    (ffu : Bool) (hwd : Option HwdTable) (w : World)
    (hmem : derivedPath p f.code ∉ w.fs)
    (hdir : dirname (derivedPath p f.code) = "") :
    to_manifest env (.file f) bu p lic ffu hwd w = (.error .makedirsError, w) := by
  simp [to_manifest, hmem, hdir]

theorem to_manifest_file_ok (env : Env) (f : FileRec) (bu p lic : String)
    (ffu : Bool) (hwd : Option HwdTable) (w : World) (r : Option Resource)
    (w' : World)
    (h : to_manifest env (.file f) bu p lic ffu hwd w = (.ok r, w')) :
    ∃ res, r = some res ∧ noEmptyColl res = true := by
  simp only [to_manifest] at h
  split at h
  · simp only [Prod.mk.injEq, Except.ok.injEq] at h
    exact ⟨_, h.1.symm, by rw [noEmptyColl]⟩
  · split at h
    · simp at h
    · split at h
      · simp at h
      · simp only [Prod.mk.injEq, Except.ok.injEq] at h
        exact ⟨_, h.1.symm, by rw [noEmptyColl]⟩

/-! ### Characterization of `to_collection`

`CollOk` states the pruning contract of one `to_collection` call, and
`ChildrenOk` the contract of its child loop; both are established for all
nodes by strong induction on the node size. -/

/-- Contract of one `to_collection` call: a pruned (`none`) result leaves
the world untouched, and a returned Collection has the derived id, a
non-empty item list, no empty sub-collections anywhere inside, and its
derived path among the written files. -/
def CollOk (env : Env) (i : ANode) (bu p bm : String) (w : World) : Prop :=
  ∀ r w', to_collection env i bu p bm w = (.ok r, w') →
    (r = none → w' = w) ∧
    (∀ res, r = some res →
      (∃ metadata items,
        res = .collection (bu ++ derivedPath p i.code)
          (i.code ++ " - " ++ i.title) metadata items ∧ items ≠ []) ∧
      noEmptyColl res = true ∧ derivedPath p i.code ∈ w'.fs)

/-- Contract of the `to_collection` child loop: relative to the incoming
accumulator it appends some `extra` items, the resulting flag is the old
one or-ed with their non-emptiness, every appended item satisfies
`noEmptyColl`, and when nothing was appended the world is untouched. -/
def ChildrenOk (env : Env) (cs : List ANode) (bu cf bm : String)
    (ls : Option (Option Resource)) (it : List Resource) (fl : Bool)
    (w : World) : Prop :=
  ∀ out w1, collect_children env cs bu cf bm ls it fl w = (.ok out, w1) →
    (∀ r0, ls = some (some r0) → noEmptyColl r0 = true) →
    ∃ extra, out.1 = it ++ extra ∧ out.2 = (fl || !extra.isEmpty) ∧
      (∀ x ∈ extra, noEmptyColl x = true) ∧ (extra = [] → w1 = w)

theorem body_char (env : Env) (code title uri : String) (parts : List ANode)
    (bu p bm : String) (w : World) (r : Option Resource) (w' : World)
    (hok : to_collection_body env code title uri parts bu p bm w = (.ok r, w'))
    (hch : ChildrenOk env parts bu (derivedPath p code) bm none [] false w) :
    (r = none → w' = w) ∧
    (∀ res, r = some res →
      (∃ metadata items,
        res = .collection (bu ++ derivedPath p code)
          (code ++ " - " ++ title) metadata items ∧ items ≠ []) ∧
      noEmptyColl res = true ∧ derivedPath p code ∈ w'.fs) := by
  rw [to_collection_body.eq_def] at hok
  simp only [] at hok
  rcases hcc : collect_children env parts bu (derivedPath p code) bm none [] false w
    with ⟨cr, w1⟩
  rw [hcc] at hok
  cases cr with
  | error e => simp at hok
  | ok pr =>
    obtain ⟨items, flag⟩ := pr
    obtain ⟨extra, hext1, hext2, hext3, hext4⟩ :=
      hch (items, flag) w1 hcc (by intro r0 h0; cases h0)
    simp only [List.nil_append] at hext1
    simp only [Bool.false_or] at hext2
    subst hext1
    cases flag with
    | false =>
      have hemp : items = [] := by
        cases items with
        | nil => rfl
        | cons a as => simp at hext2
      have hok2 : ((Except.ok none : Except Err (Option Resource)), w1) = (.ok r, w') := hok
      rw [Prod.mk.injEq] at hok2
      obtain ⟨h1, h2⟩ := hok2
      have hr : r = none := by
        injection h1 with h
        exact h.symm
      subst hr
      refine ⟨fun _ => ?_, fun res hres => by cases hres⟩
      rw [← h2]
      exact hext4 hemp
    | true =>
      have hne : items ≠ [] := by
        intro habs
        subst habs
        simp at hext2
      have hok2 : ((Except.ok (some (Resource.collection (bu ++ derivedPath p code)
          (code ++ " - " ++ title)
          ([⟨"Identifier", [code]⟩, ⟨"Title", [title]⟩]
            ++ (if uri ≠ "" then [⟨"Permalink", [anchor uri]⟩] else []))
          items)) : Except Err (Option Resource)),
          { w1 with fs := derivedPath p code :: w1.fs }) = (.ok r, w') := hok
      rw [Prod.mk.injEq] at hok2
      obtain ⟨h1, h2⟩ := hok2
      have hr : r = some (Resource.collection (bu ++ derivedPath p code)
          (code ++ " - " ++ title)
          ([⟨"Identifier", [code]⟩, ⟨"Title", [title]⟩]
            ++ (if uri ≠ "" then [⟨"Permalink", [anchor uri]⟩] else []))
          items) := by
        injection h1 with h
        exact h.symm
      subst hr
      constructor
      · intro h0
        exact absurd h0 (by simp)
      · intro res hres
        obtain rfl := (Option.some.inj hres).symm
        refine ⟨⟨_, items, rfl, hne⟩, ?_, ?_⟩
        · rw [noEmptyColl]
          show (!items.isEmpty && noEmptyCollList items) = true
          simp only [Bool.and_eq_true]
          refine ⟨by simpa using hne, (noEmptyCollList_iff _).2 hext3⟩
        · rw [← h2]
          simp

theorem children_step_some (env : Env) (rest : List ANode) (bu cf bm : String)
    (r : Resource) (it : List Resource) (fl : Bool) (w1' : World)
    (out : List Resource × Bool) (w1 : World) (w : World)
    (hrest : ∀ ls' it' fl' w'', ChildrenOk env rest bu cf bm ls' it' fl' w'')
    (hr : noEmptyColl r = true)
    (hok : collect_children env rest bu cf bm (some (some r)) (it ++ [r]) true w1'
      = (.ok out, w1)) :
    ∃ extra, out.1 = it ++ extra ∧ out.2 = (fl || !extra.isEmpty) ∧
      (∀ x ∈ extra, noEmptyColl x = true) ∧ (extra = [] → w1 = w) := by
  obtain ⟨extra', h1, h2, h3, _⟩ :=
    hrest (some (some r)) (it ++ [r]) true w1' out w1 hok
      (by
        intro r0 h0
        injection h0 with h0
        injection h0 with h0
        exact h0 ▸ hr)
  refine ⟨r :: extra', ?_, ?_, ?_, ?_⟩
  · rw [h1]
    simp
  · rw [h2]
    simp
  · intro x hx
    rcases List.mem_cons.1 hx with h | h
    · exact h ▸ hr
    · exact h3 x h
  · intro habs
    exact absurd habs (by simp)

theorem children_step_none (env : Env) (rest : List ANode) (bu cf bm : String)
    (it : List Resource) (fl : Bool) (w1' : World)
    (out : List Resource × Bool) (w1 : World) (w : World)
    (hrest : ∀ ls' it' fl' w'', ChildrenOk env rest bu cf bm ls' it' fl' w'')
    (hw : w1' = w)
    (hok : collect_children env rest bu cf bm (some none) it fl w1' = (.ok out, w1)) :
    ∃ extra, out.1 = it ++ extra ∧ out.2 = (fl || !extra.isEmpty) ∧
      (∀ x ∈ extra, noEmptyColl x = true) ∧ (extra = [] → w1 = w) := by
  rw [hw] at hok
  exact hrest (some none) it fl w out w1 hok
    (by
      intro r0 h0
      injection h0 with h0
      cases h0)

theorem children_nil_char (env : Env) (bu cf bm : String)
    (ls : Option (Option Resource)) (it : List Resource) (fl : Bool) (w : World) :
    ChildrenOk env [] bu cf bm ls it fl w := by
  intro out w1 hok _
  rw [collect_children.eq_def] at hok
  have hok2 : ((Except.ok (it, fl) : Except Err (List Resource × Bool)), w)
      = (.ok out, w1) := hok
  rw [Prod.mk.injEq] at hok2
  obtain ⟨h1, h2⟩ := hok2
  have hout : out = (it, fl) := by
    injection h1 with h
    exact h.symm
  subst hout
  exact ⟨[], by simp, by simp, by simp, fun _ => h2.symm⟩

theorem children_cons_char (env : Env) (c : ANode) (rest : List ANode)
    (bu cf bm : String)
    (hcoll : ∀ p' w'', CollOk env c bu p' bm w'')
    (hrest : ∀ ls' it' fl' w'', ChildrenOk env rest bu cf bm ls' it' fl' w'')
    (ls : Option (Option Resource)) (it : List Resource) (fl : Bool) (w : World) :
    ChildrenOk env (c :: rest) bu cf bm ls it fl w := by
  intro out w1 hok hls
  rw [collect_children.eq_def] at hok
  simp only [] at hok
  cases c with
  | series co ti ur ps =>
    rw [child_step_series] at hok
    rcases hstep : to_collection env (.series co ti ur ps) bu
        (pyReplace cf ".json" "/") bm w with ⟨sr, w1'⟩
    rw [hstep] at hok
    cases sr with
    | error e => simp at hok
    | ok sp =>
      cases sp with
      | some r =>
        have hr : noEmptyColl r = true :=
          ((hcoll (pyReplace cf ".json" "/") w) (some r) w1' hstep).2 r rfl |>.2.1
        have hok2 : collect_children env rest bu cf bm (some (some r)) (it ++ [r])
            true w1' = (.ok out, w1) := hok
        exact children_step_some env rest bu cf bm r it fl w1' out w1 w hrest hr hok2
      | none =>
        have hw : w1' = w := ((hcoll (pyReplace cf ".json" "/") w) none w1' hstep).1 rfl
        have hok2 : collect_children env rest bu cf bm (some none) it fl w1'
            = (.ok out, w1) := hok
        exact children_step_none env rest bu cf bm it fl w1' out w1 w hrest hw hok2
  | filegrp co ti ur da ps =>
    rw [child_step_filegrp] at hok
    rcases hstep : to_collection env (.filegrp co ti ur da ps) bu
        (pyReplace cf ".json" "/") bm w with ⟨sr, w1'⟩
    rw [hstep] at hok
    cases sr with
    | error e => simp at hok
    | ok sp =>
      cases sp with
      | some r =>
        have hr : noEmptyColl r = true :=
          ((hcoll (pyReplace cf ".json" "/") w) (some r) w1' hstep).2 r rfl |>.2.1
        have hok2 : collect_children env rest bu cf bm (some (some r)) (it ++ [r])
            true w1' = (.ok out, w1) := hok
        exact children_step_some env rest bu cf bm r it fl w1' out w1 w hrest hr hok2
      | none =>
        have hw : w1' = w := ((hcoll (pyReplace cf ".json" "/") w) none w1' hstep).1 rfl
        have hok2 : collect_children env rest bu cf bm (some none) it fl w1'
            = (.ok out, w1) := hok
        exact children_step_none env rest bu cf bm it fl w1' out w1 w hrest hw hok2
  | file f =>
    rw [child_step_file] at hok
    by_cases hbm : bm ≠ ""
    · rw [if_pos hbm] at hok
      rcases hstep : to_manifest env (.file f) bm "inventories/" defaultLicense
          false none w with ⟨sr, w1'⟩
      rw [hstep] at hok
      cases sr with
      | error e => simp at hok
      | ok sp =>
        obtain ⟨res, hsp, hres⟩ := to_manifest_file_ok env f bm "inventories/"
          defaultLicense false none w sp w1' hstep
        subst hsp
        have hok2 : collect_children env rest bu cf bm (some (some res)) (it ++ [res])
            true w1' = (.ok out, w1) := hok
        exact children_step_some env rest bu cf bm res it fl w1' out w1 w hrest hres hok2
    · rw [if_neg hbm] at hok
      rcases hstep : to_manifest env (.file f) bu (pyReplace cf ".json" "/")
          defaultLicense false none w with ⟨sr, w1'⟩
      rw [hstep] at hok
      cases sr with
      | error e => simp at hok
      | ok sp =>
        obtain ⟨res, hsp, hres⟩ := to_manifest_file_ok env f bu
          (pyReplace cf ".json" "/") defaultLicense false none w sp w1' hstep
        subst hsp
        have hok2 : collect_children env rest bu cf bm (some (some res)) (it ++ [res])
            true w1' = (.ok out, w1) := hok
        exact children_step_some env rest bu cf bm res it fl w1' out w1 w hrest hres hok2
  | fonds co ti ur ps =>
    rw [child_step_fonds] at hok
    cases ls with
    | none => simp [fonds_step] at hok
    | some sp =>
      cases sp with
      | some r0 =>
        have hr : noEmptyColl r0 = true := hls r0 rfl
        have hok2 : collect_children env rest bu cf bm (some (some r0)) (it ++ [r0])
            true w = (.ok out, w1) := hok
        exact children_step_some env rest bu cf bm r0 it fl w out w1 w hrest hr hok2
      | none =>
        have hok2 : collect_children env rest bu cf bm (some none) it fl w
            = (.ok out, w1) := hok
        exact children_step_none env rest bu cf bm it fl w out w1 w hrest rfl hok2

theorem to_collection_master (n : Nat) :
    (∀ env i bu p bm w, sizeOf i ≤ n → CollOk env i bu p bm w) ∧
    (∀ env cs bu cf bm ls it fl w, sizeOf cs ≤ n → ChildrenOk env cs bu cf bm ls it fl w) := by
  induction n using Nat.strong_induction_on with
  | _ n ih =>
    constructor
    · intro env i bu p bm w hn
      cases i with
      | file f =>
        intro r w' hok
        rw [to_collection.eq_def] at hok
        simp at hok
      | fonds code title uri parts =>
        intro r w' hok
        rw [to_collection.eq_def] at hok
        have hok2 : to_collection_body env code title uri parts bu p bm w
            = (.ok r, w') := hok
        have hlt : sizeOf parts < n := by
          have h0 : sizeOf parts < sizeOf (ANode.fonds code title uri parts) := by
            simp
          omega
        have hch := (ih (sizeOf parts) hlt).2 env parts bu (derivedPath p code) bm
          none [] false w (le_refl _)
        have hb := body_char env code title uri parts bu p bm w r w' hok2 hch
        simpa [ANode.code, ANode.title] using hb
      | series code title uri parts =>
        intro r w' hok
        rw [to_collection.eq_def] at hok
        have hok2 : to_collection_body env code title uri parts bu p bm w
            = (.ok r, w') := hok
        have hlt : sizeOf parts < n := by
          have h0 : sizeOf parts < sizeOf (ANode.series code title uri parts) := by
            simp
          omega
        have hch := (ih (sizeOf parts) hlt).2 env parts bu (derivedPath p code) bm
          none [] false w (le_refl _)
        have hb := body_char env code title uri parts bu p bm w r w' hok2 hch
        simpa [ANode.code, ANode.title] using hb
      | filegrp code title uri date parts =>
        intro r w' hok
        rw [to_collection.eq_def] at hok
        have hok2 : to_collection_body env code title uri parts bu p bm w
            = (.ok r, w') := hok
        have hlt : sizeOf parts < n := by
          have h0 : sizeOf parts < sizeOf (ANode.filegrp code title uri date parts) := by
            simp
          omega
        have hch := (ih (sizeOf parts) hlt).2 env parts bu (derivedPath p code) bm
          none [] false w (le_refl _)
        have hb := body_char env code title uri parts bu p bm w r w' hok2 hch
        simpa [ANode.code, ANode.title] using hb
    · intro env cs bu cf bm ls it fl w hn
      cases cs with
      | nil => exact children_nil_char env bu cf bm ls it fl w
      | cons c rest =>
        have hltc : sizeOf c < n := by
          have h0 : sizeOf c < sizeOf (c :: rest) := by
            simp only [List.cons.sizeOf_spec]
            omega
          omega
        have hltr : sizeOf rest < n := by
          have h0 : sizeOf rest < sizeOf (c :: rest) := by
            simp only [List.cons.sizeOf_spec]
            omega
          omega
        exact children_cons_char env c rest bu cf bm
          (fun p' w'' => (ih (sizeOf c) hltc).1 env c bu p' bm w'' (le_refl _))
          (fun ls' it' fl' w'' =>
            (ih (sizeOf rest) hltr).2 env rest bu cf bm ls' it' fl' w'' (le_refl _))
          ls it fl w

theorem to_collection_CollOk (env : Env) (i : ANode) (bu p bm : String) (w : World) :
    CollOk env i bu p bm w :=
  (to_collection_master (sizeOf i)).1 env i bu p bm w (le_refl _)

theorem to_collection_ChildrenOk (env : Env) (cs : List ANode) (bu cf bm : String)
    (ls : Option (Option Resource)) (it : List Resource) (fl : Bool) (w : World) :
    ChildrenOk env cs bu cf bm ls it fl w :=
  (to_collection_master (sizeOf cs)).2 env cs bu cf bm ls it fl w (le_refl _)

/-! ### Unfolding equations for the collection walk -/

theorem collect_children_nil_eq (env : Env) (bu cf bm : String)
    (ls : Option (Option Resource)) (it : List Resource) (fl : Bool) (w : World) :
    collect_children env [] bu cf bm ls it fl w = (.ok (it, fl), w) := by
  rw [collect_children.eq_def]

theorem collect_children_cons_eq (env : Env) (c : ANode) (rest : List ANode)
    (bu cf bm : String) (ls : Option (Option Resource)) (it : List Resource)
    (fl : Bool) (w : World) :
    collect_children env (c :: rest) bu cf bm ls it fl w =
      match child_step env c bu cf bm ls w with
      | (.error e, w1) => (.error e, w1)
      | (.ok sp, w1) =>
        match sp with
        | some r => collect_children env rest bu cf bm (some sp) (it ++ [r]) true w1
        | none => collect_children env rest bu cf bm (some sp) it fl w1 := by
  rw [collect_children.eq_def]

/-! ### Concrete fixtures for the example runs

A minimal environment (`envW`: every oracle fails, cache configured), an
empty starting world, a one-series/one-file archival tree, and the resources
its build produces. -/

/-- Environment whose network, XML and image oracles all fail. -/
def envW : Env :=
  { network := fun _ => none,
    parseXml := fun _ => none,
    fetchCanvas := fun _ => none,
    cachePath := "data/gaf/" }

/-- The empty starting world. -/
def w0 : World := { fs := [], scanCache := [], scanFetches := [] }

/-- A leaf `File` with no permalink, no date and no METS id. -/
def fW : FileRec := { code := "77", title := "t", uri := "", date := "", metsid := "" }

/-- A one-series tree holding the single file `fW`. -/
def treeW : ANode := .series "A" "S" "" [.file fW]

/-- The Manifest that `to_manifest` builds for `fW` under prefix `A/`. -/
def mW : ManifestRec :=
  { id := "https://b/A/77.json", label := "77 - t",
    metadata := [⟨"Identifier", ["77"]⟩, ⟨"Title", ["t"]⟩, ⟨"Date", ["?"]⟩,
      ⟨"Permalink", [anchor ""]⟩],
    rights := defaultLicense, items := [] }

/-- The world after building `mW`. -/
def wM : World := { fs := ["A/77.json"], scanCache := [], scanFetches := [] }

/-- The Collection that `to_collection` builds for `treeW`. -/
def resW : Resource := .collection "https://b/A.json" "A - S"
  [⟨"Identifier", ["A"]⟩, ⟨"Title", ["S"]⟩] [.manifest mW]

/-- The world after the full `treeW` build (post-order writes). -/
def wM2 : World := { fs := ["A.json", "A/77.json"], scanCache := [], scanFetches := [] }

theorem treeW_manifest_run :
    to_manifest envW (.file fW) "https://b/" "A/" defaultLicense false none w0
      = (.ok (some (.manifest mW)), wM) := rfl

theorem treeW_children_run :
    collect_children envW [ANode.file fW] "https://b/" "A.json" "" none [] false w0
      = (.ok ([Resource.manifest mW], true), wM) := by
  rw [collect_children_cons_eq, child_step_file, if_neg (by simp),
    show pyReplace "A.json" ".json" "/" = "A/" from rfl, treeW_manifest_run]
  show collect_children envW [] "https://b/" "A.json" ""
      (some (some (Resource.manifest mW))) ([] ++ [Resource.manifest mW]) true wM
    = (.ok ([Resource.manifest mW], true), wM)
  rw [collect_children_nil_eq]
  rfl

theorem treeW_run :
    to_collection envW treeW "https://b/" "" "" w0 = (.ok (some resW), wM2) := by
  show to_collection envW (.series "A" "S" "" [.file fW]) "https://b/" "" "" w0
    = (.ok (some resW), wM2)
  rw [to_collection.eq_def]
  show to_collection_body envW "A" "S" "" [.file fW] "https://b/" "" "" w0
    = (.ok (some resW), wM2)
  rw [to_collection_body.eq_def]
  simp only []
  rw [show derivedPath "" "A" = "A.json" from rfl, treeW_children_run]
  rfl

theorem to_manifest_file_ok_mem (env : Env) (f : FileRec) (bu p lic : String)
    (ffu : Bool) (hwd : Option HwdTable) (w : World) (r : Option Resource)
    (w' : World)
    (h : to_manifest env (.file f) bu p lic ffu hwd w = (.ok r, w')) :
    derivedPath p f.code ∈ w'.fs := by
  simp only [to_manifest] at h
  split at h
  next hmem =>
    simp only [Prod.mk.injEq] at h
    rw [← h.2]
    exact hmem
  next hmem =>
    split at h
    · simp at h
    · split at h
      · simp at h
      · simp only [Prod.mk.injEq, Except.ok.injEq] at h
        rw [← h.2]
        simp

/-! ### The claims -/

/-- Claim C2 (amended): skip-if-exists.  When the derived output path is
already in the Output Store, a `File`-based `to_manifest` returns a
lightweight Reference (id + label + type) and an aggregated dict record is
skipped with an absent result (not a Reference); in both cases the world is
unchanged — nothing is rebuilt, re-serialized, written, or fetched.
Consequently, re-running `to_manifest` on a `File` after any successful run
returns the Reference. -/
theorem C2_amended_idempotence (env : Env) (f : FileRec) (d : AggRecord)
    (bu p lic : String) (ffu : Bool) (hwd : Option HwdTable) (w : World) :
    (derivedPath p f.code ∈ w.fs →
      to_manifest env (.file f) bu p lic ffu hwd w =
        (.ok (some (.reference (bu ++ derivedPath p f.code)
          (f.code ++ " - " ++ f.title) "Manifest")), w)) ∧
    (p ++ d.code ++ ".json" ∈ w.fs →
      to_manifest env (.dict d) bu p lic ffu hwd w = (.ok none, w)) ∧
    (∀ r w', to_manifest env (.file f) bu p lic ffu hwd w = (.ok r, w') →
      to_manifest env (.file f) bu p lic ffu hwd w' =
        (.ok (some (.reference (bu ++ derivedPath p f.code)
          (f.code ++ " - " ++ f.title) "Manifest")), w')) :=
  ⟨fun hm => to_manifest_file_exists env f bu p lic ffu hwd w hm,
    fun hm => to_manifest_dict_exists env d bu p lic ffu hwd w hm,
    fun r w' h => to_manifest_file_exists env f bu p lic ffu hwd w'
      (to_manifest_file_ok_mem env f bu p lic ffu hwd w r w' h)⟩

/-- An aggregated record whose output already exists in `wE`. -/
def dC : AggRecord :=
  { code := "1234", titles := ["T"], dates := ["1700"], uris := ["u"],
    metsid := "", scans := [] }

/-- A `File` with the same derived path as `dC`. -/
def f1234 : FileRec :=
  { code := "1234", title := "T", uri := "u", date := "", metsid := "" }

/-- A world already holding `inventories/1234.json`. -/
def wE : World :=
  { fs := ["inventories/1234.json"], scanCache := [], scanFetches := [] }

/-- Claim C2, counterexample: for an aggregated dict record whose derived
output path already exists, `to_manifest` returns nothing at all (`none`),
not the lightweight Reference the claim promises. -/
theorem C2_counterexample :
    to_manifest envW (.dict dC) "https://b/" "inventories/" defaultLicense
      false none wE = (.ok none, wE) ∧
    ∀ id label ty,
      (Except.ok (none : Option Resource) : Except Err (Option Resource))
        ≠ .ok (some (.reference id label ty)) := by
  refine ⟨rfl, ?_⟩
  intro id label ty h
  simp at h

theorem C2_witness :
    to_manifest envW (.file f1234) "https://b/" "inventories/" defaultLicense
        false none wE
      = (.ok (some (.reference ("https://b/" ++ derivedPath "inventories/" "1234")
          ("1234" ++ " - " ++ "T") "Manifest")), wE) ∧
    to_manifest envW (.dict dC) "https://b/" "inventories/" defaultLicense
      false none wE = (.ok none, wE) := by
  have h := C2_amended_idempotence envW f1234 dC "https://b/" "inventories/"
    defaultLicense false none wE
  exact ⟨h.1 (by decide), h.2.1 (by decide)⟩

/-- Claim C7: a call of the scan resolver with an empty `metsid` returns the
empty list with the world untouched (no cache access, no network fetch), and
the Manifest built from a `File` with empty `metsid` has zero Canvases and
is still produced and persisted. -/
theorem C7_empty_metsid (env : Env) (f : FileRec) (bu p lic : String)
    (ffu : Bool) (hwd : Option HwdTable) (w : World)
    (hmets : f.metsid = "")
    (hmem : derivedPath p f.code ∉ w.fs)
    (hdir : dirname (derivedPath p f.code) ≠ "") :
    get_scans env "" w = (.ok [], w) ∧
    to_manifest env (.file f) bu p lic ffu hwd w =
      (.ok (some (.manifest
        { id := bu ++ derivedPath p f.code,
          label := f.code ++ " - " ++ f.title,
          metadata := [⟨"Identifier", [f.code]⟩, ⟨"Title", [f.title]⟩,
            ⟨"Date", [if f.date = "" then "?" else f.date]⟩,
            ⟨"Permalink", [anchor f.uri]⟩],
          rights := lic, items := [] })),
        { w with fs := derivedPath p f.code :: w.fs }) := by
  have hscans : get_scans env f.metsid w = (.ok [], w) := by
    rw [hmets]
    simp [get_scans]
  refine ⟨by simp [get_scans], ?_⟩
  have h := to_manifest_file_built env f bu p lic ffu hwd w [] w hmem hdir hscans
  rw [h]
  rfl

theorem C7_witness :
    get_scans envW "" w0 = (.ok [], w0) ∧
    to_manifest envW (.file fW) "https://b/" "inventories/" defaultLicense
        false none w0
      = (.ok (some (.manifest
          { id := "https://b/inventories/77.json", label := "77 - t",
            metadata := [⟨"Identifier", ["77"]⟩, ⟨"Title", ["t"]⟩, ⟨"Date", ["?"]⟩,
              ⟨"Permalink", [anchor ""]⟩],
            rights := defaultLicense, items := [] })),
        { fs := ["inventories/77.json"], scanCache := [], scanFetches := [] }) := by
  have h := C7_empty_metsid envW fW "https://b/" "inventories/" defaultLicense
    false none w0 rfl (by decide) (by decide)
  refine ⟨h.1, ?_⟩
  rw [h.2]
  rfl

/-- Claim C10: when the derived manifest file name has no directory
component and the output does not already exist, `to_manifest` raises from
`os.makedirs("")` instead of writing to the current directory — while
`to_collection`, which guards its `makedirs` call, succeeds on a derived
path with empty dirname (the concrete `treeW` build at prefix `""`). -/
theorem C10_makedirs_empty_dirname (env : Env) (f : FileRec) (bu p lic : String)
    (ffu : Bool) (hwd : Option HwdTable) (w : World)
    (hmem : derivedPath p f.code ∉ w.fs)
    (hdir : dirname (derivedPath p f.code) = "") :
    to_manifest env (.file f) bu p lic ffu hwd w = (.error .makedirsError, w) ∧
    dirname (derivedPath "" "A") = "" ∧
    to_collection envW treeW "https://b/" "" "" w0 = (.ok (some resW), wM2) :=
  ⟨to_manifest_file_makedirs env f bu p lic ffu hwd w hmem hdir, by decide, treeW_run⟩

theorem C10_witness :
    to_manifest envW (.file fW) "https://b/" "" defaultLicense false none w0
      = (.error .makedirsError, w0) :=
  (C10_makedirs_empty_dirname envW fW "https://b/" "" defaultLicense false none w0
    (by decide) (by decide)).1

theorem to_manifest_file_manifest_inv (env : Env) (f : FileRec) (bu p lic : String)
    (ffu : Bool) (hwd : Option HwdTable) (w : World) (m : ManifestRec) (w' : World)
    (h : to_manifest env (.file f) bu p lic ffu hwd w = (.ok (some (.manifest m)), w')) :
    m.id = bu ++ derivedPath p f.code ∧
    m.label = f.code ++ " - " ++ f.title ∧
    m.metadata = [⟨"Identifier", [f.code]⟩, ⟨"Title", [f.title]⟩,
      ⟨"Date", [if f.date = "" then "?" else f.date]⟩,
      ⟨"Permalink", [anchor f.uri]⟩] ∧
    m.rights = lic ∧
    derivedPath p f.code ∈ w'.fs := by
  simp only [to_manifest] at h
  split at h
  · simp at h
  · split at h
    · simp at h
    · split at h
      · simp at h
      · simp only [Prod.mk.injEq, Except.ok.injEq, Option.some.injEq] at h
        obtain ⟨h1, h2⟩ := h
        injection h1 with h1
        subst h1
        refine ⟨rfl, rfl, rfl, rfl, ?_⟩
        rw [← h2]
        simp

theorem to_manifest_dict_manifest_inv (env : Env) (d : AggRecord) (bu p lic : String)
    (ffu : Bool) (hwd : Option HwdTable) (w : World) (m : ManifestRec) (w' : World)
    (h : to_manifest env (.dict d) bu p lic ffu hwd w = (.ok (some (.manifest m)), w')) :
    m.id = bu ++ (p ++ d.code ++ ".json") ∧
    m.metadata = [⟨"Identifier", [d.code]⟩,
      ⟨"Titles", d.titles.map (fun t => if t = "" then "?" else t)⟩,
      ⟨"Dates", d.dates.map (fun t => if t = "" then "?" else t)⟩,
      ⟨"Permalink", d.uris.map (fun u => if u = "" then "?" else anchor u)⟩] ∧
    m.rights = lic ∧
    (p ++ d.code ++ ".json") ∈ w'.fs := by
  simp only [to_manifest] at h
  split at h
  · simp at h
  · split at h
    · simp at h
    · split at h
      · simp at h
      · split at h
        · simp at h
        · simp only [Prod.mk.injEq, Except.ok.injEq, Option.some.injEq] at h
          obtain ⟨h1, h2⟩ := h
          injection h1 with h1
          subst h1
          refine ⟨rfl, rfl, rfl, ?_⟩
          rw [← h2]
          simp

/-- Claim C4 (amended): for `File`-based resources (Collections and
Manifests, persisted or referenced) the derived output file path is
`pathPrefix + code + ".json"` with every space replaced by `+` and the
resource id is `baseURL ++ path` (e.g. code `1.04.02 HTR` under prefix
`inventories/` gives `inventories/1.04.02+HTR.json`); a Manifest built from
an aggregated dict record instead keeps its spaces: path =
`pathPrefix + code + ".json"` unchanged. -/
theorem C4_amended_path_derivation :
    (∀ env i bu p bm w w' res,
      to_collection env i bu p bm w = (.ok (some res), w') →
      ∃ metadata items,
        res = Resource.collection (bu ++ derivedPath p i.code)
          (i.code ++ " - " ++ i.title) metadata items ∧
        derivedPath p i.code ∈ w'.fs) ∧
    (∀ env f bu p lic ffu hwd w m w',
      to_manifest env (.file f) bu p lic ffu hwd w = (.ok (some (.manifest m)), w') →
      m.id = bu ++ derivedPath p f.code ∧ derivedPath p f.code ∈ w'.fs) ∧
    (∀ env f bu p lic ffu hwd (w : World),
      derivedPath p f.code ∈ w.fs →
      to_manifest env (.file f) bu p lic ffu hwd w =
        (.ok (some (.reference (bu ++ derivedPath p f.code)
          (f.code ++ " - " ++ f.title) "Manifest")), w)) ∧
    (∀ env d bu p lic ffu hwd w m w',
      to_manifest env (.dict d) bu p lic ffu hwd w = (.ok (some (.manifest m)), w') →
      m.id = bu ++ (p ++ d.code ++ ".json") ∧ (p ++ d.code ++ ".json") ∈ w'.fs) ∧
    derivedPath "inventories/" "1.04.02 HTR" = "inventories/1.04.02+HTR.json" := by
  refine ⟨?_, ?_, ?_, ?_, by decide⟩
  · intro env i bu p bm w w' res hok
    have hc := (to_collection_CollOk env i bu p bm w (some res) w' hok).2 res rfl
    obtain ⟨⟨md, items, hres, _⟩, _, hmem⟩ := hc
    exact ⟨md, items, hres, hmem⟩
  · intro env f bu p lic ffu hwd w m w' h
    have hi := to_manifest_file_manifest_inv env f bu p lic ffu hwd w m w' h
    exact ⟨hi.1, hi.2.2.2.2⟩
  · intro env f bu p lic ffu hwd w hmem
    exact to_manifest_file_exists env f bu p lic ffu hwd w hmem
  · intro env d bu p lic ffu hwd w m w' h
    have hi := to_manifest_dict_manifest_inv env d bu p lic ffu hwd w m w' h
    exact ⟨hi.1, hi.2.2.2⟩

/-- An aggregated record whose code contains a space. -/
def dHTR : AggRecord :=
  { code := "1.04.02 HTR", titles := ["T"], dates := ["1700"], uris := ["u"],
    metsid := "", scans := [] }

/-- The Manifest built for `dHTR`: its path and id keep the space. -/
def mHTR : ManifestRec :=
  { id := "https://b/inventories/1.04.02 HTR.json",
    label := "Inventory 1.04.02 HTR",
    metadata := [⟨"Identifier", ["1.04.02 HTR"]⟩, ⟨"Titles", ["T"]⟩,
      ⟨"Dates", ["1700"]⟩, ⟨"Permalink", [anchor "u"]⟩],
    rights := defaultLicense, items := [] }

/-- The world after building `mHTR`. -/
def wHTR : World :=
  { fs := ["inventories/1.04.02 HTR.json"], scanCache := [], scanFetches := [] }

/-- Claim C4, counterexample: a Manifest built from an aggregated dict
record with code `1.04.02 HTR` is written to `inventories/1.04.02 HTR.json`
— the space is NOT replaced by `+`, contradicting the claim for dict-based
Manifests. -/
theorem C4_counterexample :
    to_manifest envW (.dict dHTR) "https://b/" "inventories/" defaultLicense
      false none w0 = (.ok (some (.manifest mHTR)), wHTR) ∧
    mHTR.id ≠ "https://b/" ++ derivedPath "inventories/" "1.04.02 HTR" ∧
    "inventories/1.04.02 HTR.json" ∈ wHTR.fs ∧
    derivedPath "inventories/" "1.04.02 HTR" ∉ wHTR.fs :=
  ⟨rfl, by decide, by decide, by decide⟩

theorem C4_witness :
    derivedPath "" treeW.code ∈ wM2.fs ∧
    mW.id = "https://b/" ++ derivedPath "A/" fW.code ∧
    derivedPath "inventories/" "1.04.02 HTR" = "inventories/1.04.02+HTR.json" := by
  have h := C4_amended_path_derivation
  obtain ⟨_, _, _, hmem⟩ := h.1 envW treeW "https://b/" "" "" w0 wM2 resW treeW_run
  exact ⟨hmem, (h.2.1 envW fW "https://b/" "A/" defaultLicense false none w0 mW wM
    treeW_manifest_run).1, h.2.2.2.2⟩

/-- Claim C9 (amended): a `File`-based Manifest's metadata list is exactly
Identifier, Title, Date and Permalink where only Date defaults to `"?"` on
an empty value — Title is used verbatim (even when empty) and Permalink is
always an anchor built from the (possibly empty) uri; an aggregated dict
Manifest instead carries Identifier, Titles, Dates, Permalink with one entry
per aggregated document and `"?"` substituted for each empty title, date or
uri. -/
theorem C9_amended_metadata_defaults :
    (∀ env f bu p lic ffu hwd w m w',
      to_manifest env (.file f) bu p lic ffu hwd w = (.ok (some (.manifest m)), w') →
      m.metadata = [⟨"Identifier", [f.code]⟩, ⟨"Title", [f.title]⟩,
        ⟨"Date", [if f.date = "" then "?" else f.date]⟩,
        ⟨"Permalink", [anchor f.uri]⟩]) ∧
    (∀ env d bu p lic ffu hwd w m w',
      to_manifest env (.dict d) bu p lic ffu hwd w = (.ok (some (.manifest m)), w') →
      m.metadata = [⟨"Identifier", [d.code]⟩,
        ⟨"Titles", d.titles.map (fun t => if t = "" then "?" else t)⟩,
        ⟨"Dates", d.dates.map (fun t => if t = "" then "?" else t)⟩,
        ⟨"Permalink", d.uris.map (fun u => if u = "" then "?" else anchor u)⟩]) :=
  ⟨fun env f bu p lic ffu hwd w m w' h =>
      (to_manifest_file_manifest_inv env f bu p lic ffu hwd w m w' h).2.2.1,
    fun env d bu p lic ffu hwd w m w' h =>
      (to_manifest_dict_manifest_inv env d bu p lic ffu hwd w m w' h).2.1⟩

/-- A `File` with empty title, uri and date. -/
def f9 : FileRec := { code := "9", title := "", uri := "", date := "", metsid := "" }

/-- The Manifest built for `f9`: Title stays empty and Permalink is an
anchor around the empty uri; only Date became `"?"`. -/
def m9 : ManifestRec :=
  { id := "https://b/inventories/9.json", label := "9 - ",
    metadata := [⟨"Identifier", ["9"]⟩, ⟨"Title", [""]⟩, ⟨"Date", ["?"]⟩,
      ⟨"Permalink", [anchor ""]⟩],
    rights := defaultLicense, items := [] }

/-- The world after building `m9`. -/
def w9 : World :=
  { fs := ["inventories/9.json"], scanCache := [], scanFetches := [] }

/-- Claim C9, counterexample: for a `File` with empty title and uri, the
built Manifest's Title value is `[""]` (not `["?"]`) and its Permalink value
is the anchor around the empty string (not `"?"`) — the claimed `"?"`
defaults only exist for Date in the `File` branch. -/
theorem C9_counterexample :
    to_manifest envW (.file f9) "https://b/" "inventories/" defaultLicense
      false none w0 = (.ok (some (.manifest m9)), w9) ∧
    m9.metadata.get? 1 = some ⟨"Title", [""]⟩ ∧
    (KVS.mk "Title" [""]) ≠ ⟨"Title", ["?"]⟩ ∧
    m9.metadata.get? 3 = some ⟨"Permalink", [anchor ""]⟩ ∧
    (KVS.mk "Permalink" [anchor ""]) ≠ ⟨"Permalink", ["?"]⟩ :=
  ⟨rfl, rfl, by decide, rfl, by decide⟩

/-- An aggregated record with empty titles, dates and uris entries. -/
def dQ : AggRecord :=
  { code := "8", titles := ["x", ""], dates := [""], uris := ["", "u"],
    metsid := "", scans := [] }

theorem C9_witness :
    m9.metadata = [⟨"Identifier", ["9"]⟩, ⟨"Title", [""]⟩, ⟨"Date", ["?"]⟩,
      ⟨"Permalink", [anchor ""]⟩] ∧
    ∃ m8 w8, to_manifest envW (.dict dQ) "https://b/" "inventories/"
        defaultLicense false none w0 = (.ok (some (.manifest m8)), w8) ∧
      m8.metadata = [⟨"Identifier", ["8"]⟩, ⟨"Titles", ["x", "?"]⟩,
        ⟨"Dates", ["?"]⟩, ⟨"Permalink", ["?", anchor "u"]⟩] := by
  have h := C9_amended_metadata_defaults
  constructor
  · exact h.1 envW f9 "https://b/" "inventories/" defaultLicense false none
      w0 m9 w9 rfl
  · refine ⟨_, _, rfl, ?_⟩
    have hd := h.2 envW dQ "https://b/" "inventories/" defaultLicense false none
      w0 _ _ (rfl :
        to_manifest envW (.dict dQ) "https://b/" "inventories/" defaultLicense
          false none w0 = _)
    rw [hd]
    rfl

/-- Claim C3 (amended): per-scan dimension resolution.  With the fetch flag
unset, a table hit uses the table's dimensions and a missing table uses the
100×100 placeholder; a table miss turns the fetch flag on and fetches from
the image service, falling back to the 100×100 placeholder (and resetting
the flag) when the fetch fails.  The flag is function-level state: once set
by an earlier scan's table miss, a later scan present in the table is STILL
fetched from the service (its table dimensions are ignored) until a failed
fetch resets the flag.  Resolution is total — exactly one canvas with some
width/height per scan, never an error. -/
theorem C3_amended_dimension_fallback (env : Env) (t : HwdTable) (mid : String)
    (n : Nat) (scan : String × String) :
    (∀ h w, hwdLookup t (stripExt scan.1) = some (h, w) →
      canvasStep env (some t) mid false n scan =
        (false, manualCanvas mid n (stripExt scan.1) scan.2 h w)) ∧
    (∀ flag, hwdLookup t (stripExt scan.1) = none →
      env.fetchCanvas scan.2 = none →
      canvasStep env (some t) mid flag n scan =
        (false, manualCanvas mid n (stripExt scan.1) scan.2 100 100)) ∧
    (∀ flag fh fw, hwdLookup t (stripExt scan.1) = none →
      env.fetchCanvas scan.2 = some (fh, fw) →
      canvasStep env (some t) mid flag n scan =
        (true, fetchedCanvas mid n (stripExt scan.1) fh fw)) ∧
    (env.fetchCanvas scan.2 = none →
      canvasStep env none mid false n scan =
        (false, manualCanvas mid n (stripExt scan.1) scan.2 100 100)) ∧
    (canvasStep env none mid false n scan =
      (false, manualCanvas mid n (stripExt scan.1) scan.2 100 100)) ∧
    (∀ h w fh fw, hwdLookup t (stripExt scan.1) = some (h, w) →
      env.fetchCanvas scan.2 = some (fh, fw) →
      canvasStep env (some t) mid true n scan =
        (true, fetchedCanvas mid n (stripExt scan.1) fh fw)) ∧
    (∀ hwd flag k scans,
      (addScans env hwd mid flag k scans).length = scans.length) := by
  refine ⟨?_, ?_, ?_, ?_, ?_, ?_, ?_⟩
  · intro h w hl
    simp [canvasStep, hl]
  · intro flag hl hf
    simp [canvasStep, hl, hf]
  · intro flag fh fw hl hf
    simp [canvasStep, hl, hf]
  · intro hf
    simp [canvasStep, hf]
  · simp [canvasStep]
  · intro h w fh fw hl hf
    simp [canvasStep, hl, hf]
  · intro hwd flag k scans
    induction scans generalizing flag k with
    | nil => simp [addScans]
    | cons sc rest ih => simp [addScans, ih]

/-- Environment whose image-info fetch always succeeds with 7×8. -/
def envF : Env := { envW with fetchCanvas := fun _ => some (7, 8) }

/-- A dimensions table holding only scan `s2`. -/
def tableW : HwdTable := [("s2", (40, 50))]

/-- Claim C3, counterexample: scans `s1` (missing from the table) then `s2`
(present with 40×50).  The miss on `s1` sets the function-level
`fetch_from_url` flag and the fetch succeeds, so `s2` is ALSO built by
fetching (7×8, viaFetch) — its table dimensions 40×50 are ignored,
contradicting "the table's dimensions are used regardless of what happened
for earlier scans". -/
theorem C3_counterexample :
    (addScans envF (some tableW) "m" false 1 [("s1", "u1"), ("s2", "u2")]).map
        (fun c => (c.height, c.width, c.viaFetch))
      = [(7, 8, true), (7, 8, true)] ∧
    hwdLookup tableW (stripExt "s2") = some (40, 50) ∧
    (7 : Nat) ≠ 40 :=
  ⟨rfl, rfl, by decide⟩

theorem C3_witness :
    canvasStep envF (some tableW) "m" false 2 ("s2", "u2")
      = (false, manualCanvas "m" 2 "s2" "u2" 40 50) ∧
    canvasStep envF (some tableW) "m" true 2 ("s2", "u2")
      = (true, fetchedCanvas "m" 2 "s2" 7 8) ∧
    canvasStep envW (some tableW) "m" false 1 ("s1", "u1")
      = (false, manualCanvas "m" 1 "s1" "u1" 100 100) ∧
    (addScans envF (some tableW) "m" false 1 [("s1", "u1"), ("s2", "u2")]).length = 2 := by
  have h2 := C3_amended_dimension_fallback envF tableW "m" 2 ("s2", "u2")
  have h1 := C3_amended_dimension_fallback envW tableW "m" 1 ("s1", "u1")
  refine ⟨?_, ?_, ?_, ?_⟩
  · exact h2.1 40 50 rfl
  · exact h2.2.2.2.2.2.1 40 50 7 8 rfl rfl
  · exact h1.2.1 false rfl rfl
  · exact (h2.2.2.2.2.2.2 (some tableW) false 1 [("s1", "u1"), ("s2", "u2")]).trans rfl

/-- Claim C8 (amended): for a non-empty metsID the resolver is cache-first —
a cached response is reused with no fetch and no state change; on a cache
miss it fetches, PARSES the response, and only then persists the raw
response to the cache, so after a fetch whose response parses the raw
response is cached, but when parsing fails the call errors WITHOUT caching
the raw response (and a failed fetch also caches nothing). -/
theorem C8_amended_cache_first (env : Env) (metsid : String) (w : World)
    (hne : metsid ≠ "") :
    (env.cachePath ≠ "" ∧ (w.scanCache.find? (fun q => q.1 == metsid)).isSome →
      (get_scans env metsid w).2 = w) ∧
    (¬(env.cachePath ≠ "" ∧ (w.scanCache.find? (fun q => q.1 == metsid)).isSome) →
      (∀ xml mets, env.network metsid = some xml → env.parseXml xml = some mets →
        get_scans env metsid w =
          (extractScans mets.structDivs mets.displayFiles,
            if env.cachePath ≠ "" then
              { w with scanFetches := w.scanFetches ++ [metsid],
                       scanCache := w.scanCache ++ [(metsid, xml)] }
            else { w with scanFetches := w.scanFetches ++ [metsid] })) ∧
      (∀ xml, env.network metsid = some xml → env.parseXml xml = none →
        get_scans env metsid w =
          (.error .parseError, { w with scanFetches := w.scanFetches ++ [metsid] })) ∧
      (env.network metsid = none →
        get_scans env metsid w =
          (.error .fetchError, { w with scanFetches := w.scanFetches ++ [metsid] }))) := by
  constructor
  · intro hc
    rw [get_scans, if_neg hne, if_pos hc]
    rcases hfind : w.scanCache.find? (fun q => q.1 == metsid) with _ | cached
    · rw [hfind] at hc
      simp at hc
    · rw [hfind]
      show (match env.parseXml cached.2 with
        | none => ((Except.error Err.parseError : Except Err (List (String × String))), w)
        | some mets => (extractScans mets.structDivs mets.displayFiles, w)).2 = w
      cases env.parseXml cached.2 <;> rfl
  · intro hm
    refine ⟨?_, ?_, ?_⟩
    · intro xml mets hnet hparse
      rw [get_scans, if_neg hne, if_neg hm, hnet]
      show (match env.parseXml xml with
        | none => ((Except.error Err.parseError : Except Err (List (String × String))),
            { w with scanFetches := w.scanFetches ++ [metsid] })
        | some mets =>
          (extractScans mets.structDivs mets.displayFiles,
            if env.cachePath ≠ "" then
              { w with scanFetches := w.scanFetches ++ [metsid],
                       scanCache := w.scanCache ++ [(metsid, xml)] }
            else { w with scanFetches := w.scanFetches ++ [metsid] })) = _
      rw [hparse]
    · intro xml hnet hparse
      rw [get_scans, if_neg hne, if_neg hm, hnet]
      show (match env.parseXml xml with
        | none => ((Except.error Err.parseError : Except Err (List (String × String))),
            { w with scanFetches := w.scanFetches ++ [metsid] })
        | some mets =>
          (extractScans mets.structDivs mets.displayFiles,
            if env.cachePath ≠ "" then
              { w with scanFetches := w.scanFetches ++ [metsid],
                       scanCache := w.scanCache ++ [(metsid, xml)] }
            else { w with scanFetches := w.scanFetches ++ [metsid] })) = _
      rw [hparse]
    · intro hnet
      rw [get_scans, if_neg hne, if_neg hm, hnet]

/-- Environment whose fetches succeed but whose responses never parse. -/
def envBadParse : Env :=
  { network := fun _ => some "garbage",
    parseXml := fun _ => none,
    fetchCanvas := fun _ => none,
    cachePath := "data/gaf/" }

/-- Claim C8, counterexample: a fetched response that fails to parse is NOT
persisted to the cache — `ET.fromstring` runs before the cache write in
`get_scans`, so the call records the fetch but leaves the cache empty,
contradicting "after any call that fetched, the raw response is present in
the cache (even when parsing of that response fails)". -/
theorem C8_counterexample :
    get_scans envBadParse "X" w0 =
      (.error .parseError, { fs := [], scanCache := [], scanFetches := ["X"] }) ∧
    "X" ∈ ({ fs := [], scanCache := [], scanFetches := ["X"] } : World).scanFetches ∧
    ∀ xml, ("X", xml) ∉ ({ fs := [], scanCache := [], scanFetches := ["X"] } : World).scanCache := by
  refine ⟨rfl, by decide, ?_⟩
  intro xml h
  simp at h

/-- A METS document with one display file and its structMap label. -/
def metsW : Mets :=
  { displayFiles := [{ id := "f1IIP", flocatHref := some "https://x/iip/a/info.json" }],
    structDivs := [{ id := "f1", label := "path/page1.tif" }] }

/-- Environment that returns `metsW` for every fetched response. -/
def envMets : Env :=
  { network := fun _ => some "raw",
    parseXml := fun sI => if sI = "raw" then some metsW else none,
    fetchCanvas := fun _ => none,
    cachePath := "data/gaf/" }

/-- A world with `MID` already cached. -/
def wCached : World :=
  { fs := [], scanCache := [("MID", "raw")], scanFetches := [] }

theorem C8_witness :
    get_scans envMets "MID" w0 =
      (.ok [("page1.tif", "https://x/iipsrv?IIIF=/a/info.json")],
        { fs := [], scanCache := [("MID", "raw")], scanFetches := ["MID"] }) ∧
    (get_scans envMets "MID" wCached).2 = wCached ∧
    get_scans envBadParse "X" w0 =
      (.error .parseError, { fs := [], scanCache := [], scanFetches := ["X"] }) := by
  have h := C8_amended_cache_first envMets "MID" w0 (by decide)
  have hc := C8_amended_cache_first envMets "MID" wCached (by decide)
  have hb := C8_amended_cache_first envBadParse "X" w0 (by decide)
  refine ⟨?_, ?_, ?_⟩
  · have h2 := (h.2 (by decide)).1 "raw" metsW rfl rfl
    rw [h2]
    rfl
  · exact hc.1 (by decide)
  · exact (hb.2 (by decide)).2.1 "garbage" rfl rfl

/-! ### Parser fixtures -/

/-- A complete `did` block: identifier, handle, titled with a unitdate. -/
def didFull : XmlEl := .mk "did" [] ""
  [ .mk "unitid" [("identifier", "x")] "123" [],
    .mk "unitid" [("type", "handle")] "http://hdl/77" [],
    .mk "unittitle" [] "A  title" [.mk "unitdate" [("normal", "1700")] "" []] ]

/-- A file-level element with a complete `did`. -/
def elFull : XmlEl := .mk "c" [("level", "file")] "" [didFull]

/-- A `did` with an identifier and a title but no handle unitid. -/
def didNoHandle : XmlEl := .mk "did" [] ""
  [ .mk "unitid" [("identifier", "x")] "123" [],
    .mk "unittitle" [] "T" [] ]

/-- A file-level element lacking the handle unitid. -/
def elNoHandle : XmlEl := .mk "c" [("level", "file")] "" [didNoHandle]

/-- A `did` with a handle and a title but no identifier unitid. -/
def didNoInv : XmlEl := .mk "did" [] ""
  [ .mk "unitid" [("type", "handle")] "h" [],
    .mk "unittitle" [] "T" [] ]

/-- A file-level element lacking the identifier unitid (silent drop). -/
def elNoInv : XmlEl := .mk "c" [("level", "file")] "" [didNoInv]

/-- Claim C5 (amended): a File node is silently dropped (ok-none, not an
error) exactly when the element lacks the `unitid[@identifier]` field or a
non-empty inclusion filter excludes it; when it passes those checks AND the
handle `unitid`, the `unittitle`, and (if a `dao` is present) its `href`
attribute all exist, a File is returned — but a missing handle, title or
dao-href is a hard exception, not a drop; and a drop never aborts the
sibling loop. -/
theorem C5_amended_file_drop :
    (∀ el fc, get_file el fc = .ok none ↔
      (∃ did, findDid el = some did ∧
        (findInvEl did = none ∨
          ∃ invEl, findInvEl did = some invEl ∧ fc ≠ [] ∧ invEl.text ∉ fc))) ∧
    (∀ el fc did invEl handleEl titleEl,
      findDid el = some did → findInvEl did = some invEl →
      (fc = [] ∨ invEl.text ∈ fc) →
      findHandleEl did = some handleEl → findTitleEl did = some titleEl →
      (∀ daoEl, findDaoEl did = some daoEl → (pyGet daoEl.attrs "href").isSome) →
      ∃ f, get_file el fc = .ok (some f) ∧ f.code = invEl.text) ∧
    (∀ el rest fc, (el.get "level" == some "file") = true →
      get_file el fc = .ok none →
      parts_loop (el :: rest) fc = parts_loop rest fc) := by
  refine ⟨?_, ?_, ?_⟩
  · intro el fc
    rcases hdid : findDid el with _ | did
    · simp [get_file, hdid]
    · rcases hinv : findInvEl did with _ | invEl
      · simp [get_file, hdid, hinv]
      · by_cases hf : fc ≠ [] ∧ invEl.text ∉ fc
        · simp only [get_file, hdid, hinv, if_pos hf]
          simp only [true_iff, eq_self_iff_true]
          simp [hf]
          exact Or.inr ⟨invEl, hinv, hf.2⟩
        · simp only [get_file, hdid, hinv, if_neg hf]
          rcases hh : findHandleEl did with _ | handleEl
          · simp [hh, hinv, hf]
          · rcases ht : findTitleEl did with _ | titleEl
            · simp [hh, ht, hinv, hf]
            · rcases hd : findDaoEl did with _ | daoEl
              · simp [hh, ht, hd, hinv, hf]
              · rcases hhref : pyGet daoEl.attrs "href" with _ | href
                · simp [hh, ht, hd, hhref, hinv, hf]
                · simp [hh, ht, hd, hhref, hinv, hf]
  · intro el fc did invEl handleEl titleEl hdid hinv hfc hh ht hhref
    have hf : ¬(fc ≠ [] ∧ invEl.text ∉ fc) := by
      rcases hfc with h | h
      · intro hc
        exact hc.1 h
      · intro hc
        exact hc.2 h
    rcases hd : findDaoEl did with _ | daoEl
    · refine ⟨{
          code := invEl.text,
          title := collapse (pyStrip titleEl.itertext),
          uri := handleEl.text,
          date := (match findFileDateEl did with
            | some date_el => dateOfEl date_el
            | none => ""),
          metsid := "" }, ?_, rfl⟩
      simp only [get_file, hdid, hinv, if_neg hf, hh, ht, hd]
    · rcases hhr : pyGet daoEl.attrs "href" with _ | href
      · have := hhref daoEl hd
        rw [hhr] at this
        simp at this
      · refine ⟨{
            code := invEl.text,
            title := collapse (pyStrip titleEl.itertext),
            uri := handleEl.text,
            date := (match findFileDateEl did with
              | some date_el => dateOfEl date_el
              | none => ""),
            metsid := lastSegment '/' href }, ?_, rfl⟩
        simp only [get_file, hdid, hinv, if_neg hf, hh, ht, hd, hhr]
  · intro el rest fc hl hfile
    rw [parts_loop.eq_def]
    simp only []
    rw [if_pos hl, hfile]

/-- Claim C5, counterexample: a file-level element that HAS its unique
identifier (and no filter is supplied) but lacks the handle `unitid` makes
`get_file` raise `AttributeError` — it neither drops the File silently nor
returns one, contradicting "in every other case a File is returned". -/
theorem C5_counterexample :
    get_file elNoHandle [] = .error .attrError ∧
    findInvEl didNoHandle = some (.mk "unitid" [("identifier", "x")] "123" []) ∧
    ∀ r : Option FileRec,
      (Except.error Err.attrError : Except Err (Option FileRec)) ≠ .ok r := by
  refine ⟨rfl, rfl, ?_⟩
  intro r h
  simp at h

theorem C5_witness :
    get_file elNoInv [] = .ok none ∧
    (∃ f, get_file elFull [] = .ok (some f) ∧ f.code = "123") ∧
    parts_loop [elNoInv] [] = parts_loop [] [] := by
  have h := C5_amended_file_drop
  have h1 : get_file elNoInv [] = .ok none :=
    (h.1 elNoInv []).mpr ⟨didNoInv, rfl, Or.inl rfl⟩
  refine ⟨h1, ?_, ?_⟩
  · obtain ⟨f, hf, hcode⟩ := h.2.1 elFull [] didFull
      (.mk "unitid" [("identifier", "x")] "123" [])
      (.mk "unitid" [("type", "handle")] "http://hdl/77" [])
      (.mk "unittitle" [] "A  title" [.mk "unitdate" [("normal", "1700")] "" []])
      rfl rfl (Or.inl rfl) rfl rfl
      (by
        intro daoEl hd
        rw [show findDaoEl didFull = none from rfl] at hd
        exact Option.noConfusion hd)
    exact ⟨f, hf, hcode.trans rfl⟩
  · exact h.2.2 elNoInv [] [] rfl h1

/-- A series element with a titled `did` but no `series_code` unitid. -/
def elNC : XmlEl := .mk "c" [("level", "series")] ""
  [.mk "did" [] "" [.mk "unittitle" [] "T" []]]

/-- A series element with a `series_code` unitid but no `unittitle`. -/
def elNoTitle : XmlEl := .mk "c" [("level", "series")] ""
  [.mk "did" [] "" [.mk "unitid" [("type", "series_code")] "SC" []]]

/-- A filegrp element whose `did` has a title but no `unitid`. -/
def elGrpNoUnitid : XmlEl := .mk "c" [("otherlevel", "filegrp")] ""
  [.mk "did" [] "" [.mk "unittitle" [] "G" []]]

/-- A filegrp element whose `did` has a `unitid` but no `unittitle`. -/
def elGrpNoTitle : XmlEl := .mk "c" [("otherlevel", "filegrp")] ""
  [.mk "did" [] "" [.mk "unitid" [] "77" []]]

/-- Claim C6 (amended): a missing `did/unittitle` is a hard parse failure
for both Series and FileGroup elements, and a missing `did/unitid` is a hard
failure for a FileGroup — but a Series element without its
`unitid[@type='series_code']` identifier does NOT fail: `get_series` falls
back to using the collapsed title as the code. -/
theorem C6_amended_parse_failure :
    (∀ el fc, findPath2P el "did" (fun c => c.tag == "unittitle") = none →
      get_series el fc = .error .attrError) ∧
    (∀ el fc, findPath2P el "did" (fun c => c.tag == "unitid") = none →
      get_filegrp el fc = .error .attrError) ∧
    (∀ el fc codeEl, findPath2P el "did" (fun c => c.tag == "unitid") = some codeEl →
      findPath2P el "did" (fun c => c.tag == "unittitle") = none →
      get_filegrp el fc = .error .attrError) ∧
    (∀ el fc titleEl parts,
      findPath2P el "did" (fun c => c.tag == "unittitle") = some titleEl →
      findPath2P el "did"
        (fun c => c.tag == "unitid" && pyGet c.attrs "type" == some "series_code") = none →
      get_file_and_filegrp_els el fc = .ok parts →
      get_series el fc = .ok (.series (collapse (pyStrip titleEl.itertext))
        (collapse (pyStrip titleEl.itertext)) "" parts)) := by
  refine ⟨?_, ?_, ?_, ?_⟩
  · intro el fc h
    rw [get_series.eq_def, h]
  · intro el fc h
    rw [get_filegrp.eq_def, h]
  · intro el fc codeEl hc ht
    rw [get_filegrp.eq_def, hc, ht]
  · intro el fc titleEl parts ht hc hp
    rw [get_series.eq_def, ht, hc, hp]

theorem parts_elNC_run : get_file_and_filegrp_els elNC [] = .ok [] := by
  rw [get_file_and_filegrp_els.eq_def]
  show parts_loop [XmlEl.mk "did" [] "" [XmlEl.mk "unittitle" [] "T" []]] [] = .ok []
  rw [parts_loop.eq_def]
  show parts_loop [] ([] : List String) = .ok []
  rw [parts_loop.eq_def]

/-- Claim C6, counterexample: a series element without its
`unitid[@type='series_code']` identifier parses successfully — `get_series`
silently substitutes the collapsed title as the code, contradicting "parsing
a series element without its identifier element fails". -/
theorem C6_counterexample :
    get_series elNC [] = .ok (.series "T" "T" "" []) ∧
    findPath2P elNC "did"
      (fun c => c.tag == "unitid" && pyGet c.attrs "type" == some "series_code") = none ∧
    ∀ e, (Except.ok (ANode.series "T" "T" "" []) : Except Err ANode) ≠ .error e := by
  refine ⟨?_, rfl, ?_⟩
  · have ht : XmlEl.itertext (XmlEl.mk "unittitle" [] "T" []) = "T" := by
      rw [XmlEl.itertext.eq_def]
      show "T" ++ itertextList [] = "T"
      rw [itertextList.eq_def]
      rfl
    have h := C6_amended_parse_failure.2.2.2 elNC []
      (XmlEl.mk "unittitle" [] "T" []) [] rfl rfl parts_elNC_run
    rw [h, ht]
    rfl
  · intro e h
    simp at h

theorem C6_witness :
    get_series elNoTitle [] = .error .attrError ∧
    get_filegrp elGrpNoUnitid [] = .error .attrError ∧
    get_filegrp elGrpNoTitle [] = .error .attrError ∧
    get_series elNC [] = .ok (.series "T" "T" "" []) := by
  have h := C6_amended_parse_failure
  refine ⟨h.1 elNoTitle [] rfl, h.2.1 elGrpNoUnitid [] rfl, ?_, ?_⟩
  · exact h.2.2.1 elGrpNoTitle [] (XmlEl.mk "unitid" [] "77" []) rfl rfl
  · have ht : XmlEl.itertext (XmlEl.mk "unittitle" [] "T" []) = "T" := by
      rw [XmlEl.itertext.eq_def]
      show "T" ++ itertextList [] = "T"
      rw [itertextList.eq_def]
      rfl
    have hs := h.2.2.2 elNC [] (XmlEl.mk "unittitle" [] "T" []) [] rfl rfl parts_elNC_run
    rw [hs, ht]
    rfl

theorem body_iff (env : Env) (code title uri : String) (parts : List ANode)
    (bu p bm : String) (w : World) (r : Option Resource) (w' : World)
    (hok : to_collection_body env code title uri parts bu p bm w = (.ok r, w')) :
    (∃ res, r = some res) ↔
      (∃ items w1, collect_children env parts bu (derivedPath p code) bm
        none [] false w = (.ok (items, true), w1) ∧ items ≠ []) := by
  rw [to_collection_body.eq_def] at hok
  simp only [] at hok
  rcases hcc : collect_children env parts bu (derivedPath p code) bm none [] false w
    with ⟨cr, w1⟩
  rw [hcc] at hok
  cases cr with
  | error e => simp at hok
  | ok pr =>
    obtain ⟨items, flag⟩ := pr
    cases flag with
    | false =>
      have hok3 : ((Except.ok none : Except Err (Option Resource)), w1)
          = (.ok r, w') := hok
      rw [Prod.mk.injEq] at hok3
      have hr : r = none := by
        injection hok3.1 with h
        exact h.symm
      subst hr
      constructor
      · rintro ⟨res, hres⟩
        cases hres
      · rintro ⟨items', w1', hcc', _⟩
        simp at hcc'
    | true =>
      have hok3 : ((Except.ok (some (Resource.collection (bu ++ derivedPath p code)
          (code ++ " - " ++ title)
          ([⟨"Identifier", [code]⟩, ⟨"Title", [title]⟩]
            ++ (if uri ≠ "" then [⟨"Permalink", [anchor uri]⟩] else []))
          items)) : Except Err (Option Resource)),
          { w1 with fs := derivedPath p code :: w1.fs }) = (.ok r, w') := hok
      rw [Prod.mk.injEq] at hok3
      have hr : r = some (Resource.collection (bu ++ derivedPath p code)
          (code ++ " - " ++ title)
          ([⟨"Identifier", [code]⟩, ⟨"Title", [title]⟩]
            ++ (if uri ≠ "" then [⟨"Permalink", [anchor uri]⟩] else []))
          items) := by
        injection hok3.1 with h
        exact h.symm
      constructor
      · intro _
        obtain ⟨extra, h1, h2, _, _⟩ :=
          to_collection_ChildrenOk env parts bu (derivedPath p code) bm none [] false w
            (items, true) w1 hcc (by intro r0 h0; cases h0)
        simp only [List.nil_append] at h1
        refine ⟨items, w1, rfl, ?_⟩
        intro habs
        rw [habs] at h1
        rw [← h1] at h2
        simp at h2
      · intro _
        exact ⟨_, hr⟩

/-- Claim C1: for every archival node, a successful `to_collection` call
returns a Collection iff its child loop produced at least one non-absent
sub-resource (Collection, Manifest or Reference); the returned Collection
carries those items, is persisted at its derived path, and no Collection
anywhere inside it is empty (pruning propagates recursively); when every
child produced nothing, `to_collection` writes no file and returns `none`,
leaving the world untouched. -/
theorem C1_to_collection_pruning (env : Env) (i : ANode)
    (bu p bm : String) (w : World) (r : Option Resource) (w' : World)
    (hok : to_collection env i bu p bm w = (.ok r, w')) :
    ((∃ res, r = some res) ↔
      (∃ items w1, collect_children env i.hasPart bu (derivedPath p i.code) bm
          none [] false w = (.ok (items, true), w1) ∧ items ≠ [])) ∧
    (r = none → w' = w) ∧
    (∀ res, r = some res →
      (∃ metadata items,
        res = Resource.collection (bu ++ derivedPath p i.code)
          (i.code ++ " - " ++ i.title) metadata items ∧ items ≠ []) ∧
      noEmptyColl res = true ∧ derivedPath p i.code ∈ w'.fs) := by
  have hc := to_collection_CollOk env i bu p bm w r w' hok
  refine ⟨?_, hc.1, hc.2⟩
  cases i with
  | file f =>
    rw [to_collection.eq_def] at hok
    simp at hok
  | fonds code title uri parts =>
    simp only [ANode.hasPart, ANode.code]
    rw [to_collection.eq_def] at hok
    exact body_iff env code title uri parts bu p bm w r w' hok
  | series code title uri parts =>
    simp only [ANode.hasPart, ANode.code]
    rw [to_collection.eq_def] at hok
    exact body_iff env code title uri parts bu p bm w r w' hok
  | filegrp code title uri date parts =>
    simp only [ANode.hasPart, ANode.code]
    rw [to_collection.eq_def] at hok
    exact body_iff env code title uri parts bu p bm w r w' hok

theorem C1_witness :
    to_collection envW treeW "https://b/" "" "" w0 = (.ok (some resW), wM2) ∧
    (∃ items w1, collect_children envW treeW.hasPart "https://b/"
        (derivedPath "" treeW.code) "" none [] false w0
      = (.ok (items, true), w1) ∧ items ≠ []) ∧
    noEmptyColl resW = true ∧ derivedPath "" treeW.code ∈ wM2.fs := by
  have h := C1_to_collection_pruning envW treeW "https://b/" "" "" w0
    (some resW) wM2 treeW_run
  exact ⟨treeW_run, h.1.mp ⟨resW, rfl⟩, (h.2.2 resW rfl).2.1, (h.2.2 resW rfl).2.2⟩

end Globalise
